import Mathlib

/-!
# Shallow embedding of the polkadot-inflation-tracker analysis pipeline

This file embeds, in Lean 4, the parts of the repository needed to settle the
frozen claims:

* `src/analyzers/exchangeDetector.js` — `ExchangeDetector.detectExchangeTransfers`
* `src/reporter.js` (FlowAnalyzer section) — `FlowAnalyzer.analyzeFlows` and its
  passes `analyzeRewards`, `analyzeTransfers`, `analyzeExchangeFlows`,
  `calculateSellPressure`, `identifyPatterns`, `generateTrends`
* `src/collectors/transferCollector.js` — `fetchTransfersForAddress` pagination
* `src/collectors/rewardCollector.js` — `fetchRecentRewards` per-address lookup

Conventions of the embedding:

* JavaScript numbers (amounts, percentages) are modelled as exact rationals `ℚ`;
  timestamps are `ℤ` (unix seconds).
* A JavaScript `Map` is modelled as an association list `List (κ × ν)` with
  insertion-order preserving `mapSet` (an existing key is updated in place, a
  new key is appended at the end), exactly the iteration semantics of `Map`.
* A JavaScript plain object used as a dictionary (the hourly buckets, the
  large-sellers-by-hour grouping) is modelled the same way; where the source
  iterates `Object.entries` over integer-like keys (ascending numeric order),
  the embedding enumerates the possible keys `0..23` in ascending order.
* `new Date(ts * 1000).getHours()` returns the hour of day in the *host local
  timezone*.  The embedding makes the host UTC offset an explicit parameter
  `tz` (seconds east of UTC): `getHoursLocal tz ts = ((ts + tz).fdiv 3600).emod 24`.
* `Date.now()` inside `analyzeFlows` is modelled by an explicit parameter `now`.
* The two `process.env` thresholds read in the `FlowAnalyzer` constructor are
  modelled by an explicit `Config` value.
-/

namespace InflationTracker

/-- Addresses are opaque strings (spec §3). -/
abbrev Addr := String

/-! ## Insertion-ordered association maps (JS `Map` / object-as-dictionary) -/

/-- JS `Map.get(k)`: first (and only, by construction) binding of `k`. -/
def mapGet {κ ν : Type} [DecidableEq κ] (m : List (κ × ν)) (k : κ) : Option ν :=
  (m.find? (fun p => p.1 = k)).map (·.2)

/-- JS `Map.set(k, v)`: update in place if present (keeping the position of the
key), append at the end otherwise — JS `Map` insertion-order semantics. -/
def mapSet {κ ν : Type} [DecidableEq κ] : List (κ × ν) → κ → ν → List (κ × ν)
  | [], k, v => [(k, v)]
  | (k', v') :: rest, k, v =>
      if k' = k then (k, v) :: rest else (k', v') :: mapSet rest k v

/-! ## Data model -/

/-- A reward event (`rewardCollector.js` record shape). -/
structure Reward where
  address : Addr
  amount : ℚ
  timestamp : ℤ
  deriving DecidableEq, Repr

/-- A transfer event (`transferCollector.js` record shape); JS field names
`from` / `to` become `fromAddr` / `toAddr` (`from` is a Lean keyword). -/
structure Transfer where
  fromAddr : Addr
  toAddr : Addr
  amount : ℚ
  timestamp : ℤ
  deriving DecidableEq, Repr

/-- The exchange info attached to a flow (`exchangeDetector.js` lookup value). -/
structure ExchangeInfo where
  id : String
  name : String
  deriving DecidableEq, Repr

/-- Flow direction tag (`type: 'deposit' | 'withdrawal'`). -/
inductive FlowType where
  | deposit
  | withdrawal
  deriving DecidableEq, Repr

/-- An exchange-classified flow: a transfer enriched with direction and venue
(`exchangeDetector.js`, `detectExchangeTransfers`). -/
structure Flow where
  fromAddr : Addr
  toAddr : Addr
  amount : ℚ
  timestamp : ℤ
  type : FlowType
  exchange : ExchangeInfo
  exchangeAddress : Addr
  deriving DecidableEq, Repr

/-! ## ExchangeDetector (`src/analyzers/exchangeDetector.js`) -/

/-- Embedding of `getExchangeInfo(address)`: lookup in the address→exchange map
(`exchangeByAddress`), `null` ↦ `none`. -/
def getExchangeInfo (exch : List (Addr × ExchangeInfo)) (address : Addr) :
    Option ExchangeInfo :=
  mapGet exch address

/-- One iteration of the `detectExchangeTransfers` loop body: a transfer whose
destination is an exchange yields a `deposit` record, and (independently) one
whose source is an exchange yields a `withdrawal` record, in that order. -/
def detectStep (exch : List (Addr × ExchangeInfo)) (t : Transfer) : List Flow :=
  (match getExchangeInfo exch t.toAddr with
    | some e =>
        [{ fromAddr := t.fromAddr, toAddr := t.toAddr, amount := t.amount,
           timestamp := t.timestamp, type := FlowType.deposit, exchange := e,
           exchangeAddress := t.toAddr }]
    | none => []) ++
  (match getExchangeInfo exch t.fromAddr with
    | some e =>
        [{ fromAddr := t.fromAddr, toAddr := t.toAddr, amount := t.amount,
           timestamp := t.timestamp, type := FlowType.withdrawal, exchange := e,
           exchangeAddress := t.fromAddr }]
    | none => [])

/-- Embedding of `ExchangeDetector.detectExchangeTransfers(transfers)`: push the records of
`detectStep` for each transfer in order. -/
def detectExchangeTransfers (exch : List (Addr × ExchangeInfo))
    (transfers : List Transfer) : List Flow :=
  transfers.flatMap (detectStep exch)

/-! ## FlowAnalyzer (`src/reporter.js`, class `FlowAnalyzer`) -/

/-- The two tunable thresholds read from `process.env` in the `FlowAnalyzer`
constructor: `rapidSellThreshold` (seconds, default `1 * 3600`) and
`largeFlowThreshold` (units, default `10000`). -/
structure Config where
  rapidSellThreshold : ℤ
  largeFlowThreshold : ℚ
  deriving DecidableEq, Repr

/-- The default configuration (no environment overrides). -/
def Config.default : Config :=
  { rapidSellThreshold := 3600, largeFlowThreshold := 10000 }

/-- Embedding of `new Date(ts * 1000).getHours()`: hour of day in the host local timezone,
where `tz` is the host UTC offset in seconds (east positive).  Floor division
and a nonnegative remainder match the calendar computation. -/
def getHoursLocal (tz ts : ℤ) : ℤ :=
  ((ts + tz).fdiv 3600).emod 24

/-- Per-address reward aggregate (`rewardsByAddress` map value). -/
structure AddrRewards where
  total : ℚ
  count : ℕ
  rewards : List Reward
  deriving DecidableEq, Repr

/-- Per-address transfer aggregate (`transfersByAddress` map value). -/
structure AddrTransfers where
  total : ℚ
  count : ℕ
  transfers : List Transfer
  deriving DecidableEq, Repr

/-- Per-address exchange-flow aggregate (`exchangeFlowsByAddress` map value). -/
structure AddrFlows where
  total : ℚ
  count : ℕ
  flows : List Flow
  quickSell : Bool
  deriving DecidableEq, Repr

/-- The `analysis.summary` record. -/
structure Summary where
  totalRewards : ℚ
  totalTransfers : ℚ
  exchangeFlow : ℚ
  sellPressurePercent : ℚ
  quickSellers : ℕ
  holders : ℕ
  averageTimeToExchange : ℚ
  deriving DecidableEq, Repr

/-- A top-seller entry (`calculateSellPressure`, `topSellers`). -/
structure Seller where
  address : Addr
  amount : ℚ
  count : ℕ
  quickSell : Bool
  deriving DecidableEq, Repr

/-- A top-holder entry (`calculateSellPressure`, `topHolders`). -/
structure Holder where
  address : Addr
  rewards : ℚ
  count : ℕ
  deriving DecidableEq, Repr

/-- An entry of the `largeSellersByHour` grouping (`identifyPatterns`). -/
structure LargeSeller where
  address : Addr
  amount : ℚ
  exchange : String
  deriving DecidableEq, Repr

/-- A suspicious pattern.  The source stores a formatted description string;
the embedding keeps the structured content the string is formatted from: the
hour bucket (for coordinated selling) and the supporting seller entries. -/
structure Pattern where
  type : String
  severity : String
  hour : ℤ
  sellers : List LargeSeller
  deriving DecidableEq, Repr

/-- An entry of the cumulative sell-pressure series (`generateTrends`). -/
structure HourPoint where
  hour : ℤ
  rewards : ℚ
  exchange : ℚ
  pressure : ℚ
  deriving DecidableEq, Repr

/-- The `analysis.details` record. -/
structure Details where
  rewardsByAddress : List (Addr × AddrRewards)
  transfersByAddress : List (Addr × AddrTransfers)
  exchangeFlowsByAddress : List (Addr × AddrFlows)
  topSellers : List Seller
  topHolders : List Holder
  suspiciousPatterns : List Pattern
  deriving DecidableEq, Repr

/-- The `analysis.trends` record. -/
structure Trends where
  hourlyRewards : List (ℤ × ℚ)
  hourlyExchangeFlows : List (ℤ × ℚ)
  cumulativeSellPressure : List HourPoint
  deriving DecidableEq, Repr

/-- The full `AnalysisResult` returned by `analyzeFlows`. -/
structure Analysis where
  timestamp : ℤ
  periodStart : ℤ
  periodEnd : ℤ
  summary : Summary
  details : Details
  trends : Trends
  deriving DecidableEq, Repr

/-- The initial `analysis` object literal at the top of `analyzeFlows`
(`now` is the `Date.now()` reading). -/
def initialAnalysis (now : ℤ) : Analysis :=
  { timestamp := now
    periodStart := now - 86400
    periodEnd := now
    summary :=
      { totalRewards := 0, totalTransfers := 0, exchangeFlow := 0,
        sellPressurePercent := 0, quickSellers := 0, holders := 0,
        averageTimeToExchange := 0 }
    details :=
      { rewardsByAddress := [], transfersByAddress := [],
        exchangeFlowsByAddress := [], topSellers := [], topHolders := [],
        suspiciousPatterns := [] }
    trends :=
      { hourlyRewards := [], hourlyExchangeFlows := [],
        cumulativeSellPressure := [] } }

/-- One iteration of the `analyzeRewards` loop body. -/
def analyzeRewardsStep (tz : ℤ) (a : Analysis) (reward : Reward) : Analysis :=
  let prev := (mapGet a.details.rewardsByAddress reward.address).getD
    { total := 0, count := 0, rewards := [] }
  let upd : AddrRewards :=
    { total := prev.total + reward.amount, count := prev.count + 1,
      rewards := prev.rewards ++ [reward] }
  let hour := getHoursLocal tz reward.timestamp
  { a with
    summary := { a.summary with
      totalRewards := a.summary.totalRewards + reward.amount }
    details := { a.details with
      rewardsByAddress := mapSet a.details.rewardsByAddress reward.address upd }
    trends := { a.trends with
      hourlyRewards := mapSet a.trends.hourlyRewards hour
        (((mapGet a.trends.hourlyRewards hour).getD 0) + reward.amount) } }

/-- Embedding of `FlowAnalyzer.analyzeRewards(rewards, analysis)`. -/
def analyzeRewards (tz : ℤ) (rewards : List Reward) (a : Analysis) : Analysis :=
  rewards.foldl (analyzeRewardsStep tz) a

/-- One iteration of the `analyzeTransfers` loop body. -/
def analyzeTransfersStep (a : Analysis) (transfer : Transfer) : Analysis :=
  let prev := (mapGet a.details.transfersByAddress transfer.fromAddr).getD
    { total := 0, count := 0, transfers := [] }
  let upd : AddrTransfers :=
    { total := prev.total + transfer.amount, count := prev.count + 1,
      transfers := prev.transfers ++ [transfer] }
  { a with
    summary := { a.summary with
      totalTransfers := a.summary.totalTransfers + transfer.amount }
    details := { a.details with
      transfersByAddress :=
        mapSet a.details.transfersByAddress transfer.fromAddr upd } }

/-- Embedding of `FlowAnalyzer.analyzeTransfers(transfers, analysis)`. -/
def analyzeTransfers (transfers : List Transfer) (a : Analysis) : Analysis :=
  transfers.foldl analyzeTransfersStep a

/-- The quick-sell lookup of `analyzeExchangeFlows`: when the flow's sender has
a reward-aggregate entry with a nonempty reward list, the time difference to
`rewardInfo.rewards[rewardInfo.rewards.length - 1]` — the *last pushed* reward
of the address, whatever its timestamp. -/
def timeDiffOf (rba : List (Addr × AddrRewards)) (flow : Flow) : Option ℤ :=
  match mapGet rba flow.fromAddr with
  | some rewardInfo =>
      match rewardInfo.rewards.getLast? with
      | some lastReward => some (flow.timestamp - lastReward.timestamp)
      | none => none
  | none => none

/-- One iteration of the `analyzeExchangeFlows` loop body.  The state carries
the analysis plus the local `timeToExchange` list.  Non-deposit flows are
skipped entirely. -/
def analyzeExchangeFlowsStep (cfg : Config) (tz : ℤ) (st : Analysis × List ℤ)
    (flow : Flow) : Analysis × List ℤ :=
  let a := st.1
  let timeToExchange := st.2
  if flow.type = FlowType.deposit then
    let s1 := { a.summary with exchangeFlow := a.summary.exchangeFlow + flow.amount }
    let prev := (mapGet a.details.exchangeFlowsByAddress flow.fromAddr).getD
      { total := 0, count := 0, flows := [], quickSell := false }
    let addrFlows : AddrFlows :=
      { total := prev.total + flow.amount, count := prev.count + 1,
        flows := prev.flows ++ [flow], quickSell := prev.quickSell }
    let hour := getHoursLocal tz flow.timestamp
    let timeDiffOpt : Option ℤ := timeDiffOf a.details.rewardsByAddress flow
    let newHourly :=
      mapSet a.trends.hourlyExchangeFlows hour
        (((mapGet a.trends.hourlyExchangeFlows hour).getD 0) + flow.amount)
    let newTrends := { a.trends with hourlyExchangeFlows := newHourly }
    match timeDiffOpt with
    | some timeDiff =>
        let quick := timeDiff < cfg.rapidSellThreshold
        let addrFlows2 := if quick then { addrFlows with quickSell := true } else addrFlows
        let s2 := if quick then { s1 with quickSellers := s1.quickSellers + 1 } else s1
        let newEfa := mapSet a.details.exchangeFlowsByAddress flow.fromAddr addrFlows2
        (⟨a.timestamp, a.periodStart, a.periodEnd, s2,
          { a.details with exchangeFlowsByAddress := newEfa }, newTrends⟩,
         timeToExchange ++ [timeDiff])
    | none =>
        let newEfa := mapSet a.details.exchangeFlowsByAddress flow.fromAddr addrFlows
        (⟨a.timestamp, a.periodStart, a.periodEnd, s1,
          { a.details with exchangeFlowsByAddress := newEfa }, newTrends⟩,
         timeToExchange)
  else st

/-- Embedding of `FlowAnalyzer.analyzeExchangeFlows(exchangeFlows, analysis)`: fold the loop
body over all flows, then set the average time-to-exchange (in hours) when the
`timeToExchange` list is nonempty. -/
def analyzeExchangeFlows (cfg : Config) (tz : ℤ) (exchangeFlows : List Flow)
    (a : Analysis) : Analysis :=
  let st := exchangeFlows.foldl (analyzeExchangeFlowsStep cfg tz) (a, [])
  let a1 := st.1
  let timeToExchange := st.2
  if 0 < timeToExchange.length then
    { a1 with summary := { a1.summary with
        averageTimeToExchange :=
          ((timeToExchange.map (fun d => (d : ℚ))).sum /
            (timeToExchange.length : ℚ)) / 3600 } }
  else a1

/-- Stable insertion for descending-by-amount sort of seller entries; an
element is placed before the first entry of smaller-or-equal amount, which
(applied right-to-left) reproduces the output of the stable JS `sort` with
comparator `(a, b) => b.amount - a.amount`. -/
def insertSellerDesc (x : Seller) : List Seller → List Seller
  | [] => [x]
  | y :: ys => if y.amount ≤ x.amount then x :: y :: ys else y :: insertSellerDesc x ys

/-- Stable descending sort of seller entries by amount. -/
def sortSellersDesc (l : List Seller) : List Seller :=
  l.foldr insertSellerDesc []

/-- Stable insertion for descending-by-rewards sort of holder entries. -/
def insertHolderDesc (x : Holder) : List Holder → List Holder
  | [] => [x]
  | y :: ys => if y.rewards ≤ x.rewards then x :: y :: ys else y :: insertHolderDesc x ys

/-- Stable descending sort of holder entries by rewards. -/
def sortHoldersDesc (l : List Holder) : List Holder :=
  l.foldr insertHolderDesc []

/-- Embedding of `FlowAnalyzer.calculateSellPressure(analysis)`: sell-pressure percentage
(guarded by `totalRewards > 0`), holder count (reward addresses with no entry
in the exchange-flow map), and the two top-10 rankings. -/
def calculateSellPressure (a : Analysis) : Analysis :=
  let s1 :=
    if 0 < a.summary.totalRewards then
      { a.summary with sellPressurePercent :=
          a.summary.exchangeFlow / a.summary.totalRewards * 100 }
    else a.summary
  let rewardAddresses := a.details.rewardsByAddress.map (·.1)
  let holdersCount := rewardAddresses.countP
    (fun addr => (mapGet a.details.exchangeFlowsByAddress addr).isNone)
  let s2 := { s1 with holders := s1.holders + holdersCount }
  let sellers := (sortSellersDesc (a.details.exchangeFlowsByAddress.map
    (fun p => { address := p.1, amount := p.2.total, count := p.2.count,
                quickSell := p.2.quickSell }))).take 10
  let holders := (sortHoldersDesc ((a.details.rewardsByAddress.filter
    (fun p => (mapGet a.details.exchangeFlowsByAddress p.1).isNone)).map
    (fun p => { address := p.1, rewards := p.2.total, count := p.2.count }))).take 10
  let d2 := { a.details with topSellers := sellers, topHolders := holders }
  { a with summary := s2, details := d2 }

/-- The `largeSellersByHour` grouping built in `identifyPatterns`: for every
flow of every entry of the exchange-flow map whose amount strictly exceeds the
large-flow threshold, append a seller record to the flow's hour bucket. -/
def largeSellersByHour (cfg : Config) (tz : ℤ)
    (efa : List (Addr × AddrFlows)) : List (ℤ × List LargeSeller) :=
  efa.foldl (fun m p =>
    p.2.flows.foldl (fun m flow =>
      if cfg.largeFlowThreshold < flow.amount then
        let hour := getHoursLocal tz flow.timestamp
        mapSet m hour (((mapGet m hour).getD []) ++
          [{ address := p.1, amount := flow.amount, exchange := flow.exchange.name }])
      else m) m) []

/-- The coordinated-selling patterns of `identifyPatterns`: `Object.entries`
over the hour-keyed object enumerates the integer-like keys in ascending
numeric order, which the embedding realises by scanning hours `0..23`; an
hour whose seller list has at least 3 entries yields one high-severity
pattern. -/
def coordinatedPatterns (cfg : Config) (tz : ℤ)
    (efa : List (Addr × AddrFlows)) : List Pattern :=
  let m := largeSellersByHour cfg tz efa
  (List.range 24).flatMap (fun h =>
    match mapGet m (h : ℤ) with
    | some sellers =>
        if 3 ≤ sellers.length then
          [{ type := "coordinated_selling", severity := "high",
             hour := (h : ℤ), sellers := sellers }]
        else []
    | none => [])

/-- Embedding of `FlowAnalyzer.identifyPatterns(analysis, topReceivers)`; the
`topReceivers` argument is never read in the body. -/
def identifyPatterns (cfg : Config) (tz : ℤ) (a : Analysis)
    (_topReceivers : List Addr) : Analysis :=
  let p1 : List Pattern := coordinatedPatterns cfg tz a.details.exchangeFlowsByAddress
  let p2 : List Pattern :=
    if 50 < a.summary.sellPressurePercent then
      [{ type := "high_sell_pressure", severity := "medium", hour := 0, sellers := [] }]
    else []
  let p3 : List Pattern :=
    if 10 < a.summary.quickSellers then
      [{ type := "rapid_selling", severity := "medium", hour := 0, sellers := [] }]
    else []
  { a with details := { a.details with suspiciousPatterns := p1 ++ p2 ++ p3 } }

/-- Embedding of `FlowAnalyzer.generateTrends(analysis)`: cumulative rewards/exchange flow
and pressure percentage over hour buckets `0..23`. -/
def generateTrends (a : Analysis) : Analysis :=
  let st := (List.range 24).foldl
    (fun (st : ℚ × ℚ × List HourPoint) (hour : ℕ) =>
      let cumulativeRewards := st.1 + (mapGet a.trends.hourlyRewards (hour : ℤ)).getD 0
      let cumulativeExchange :=
        st.2.1 + (mapGet a.trends.hourlyExchangeFlows (hour : ℤ)).getD 0
      (cumulativeRewards, cumulativeExchange, st.2.2 ++
        [{ hour := (hour : ℤ), rewards := cumulativeRewards,
           exchange := cumulativeExchange,
           pressure :=
             if 0 < cumulativeRewards then
               cumulativeExchange / cumulativeRewards * 100
             else 0 }]))
    ((0 : ℚ), (0 : ℚ), ([] : List HourPoint))
  { a with trends := { a.trends with
      cumulativeSellPressure := a.trends.cumulativeSellPressure ++ st.2.2 } }

/-- Embedding of `FlowAnalyzer.analyzeFlows({rewards, transfers, exchangeFlows,
topReceivers})`.  `now` is the `Date.now()/1000` reading taken at the top of
the function; `tz` is the host UTC offset consulted by `Date#getHours`;
`cfg` holds the two constructor thresholds. -/
def analyzeFlows (cfg : Config) (tz now : ℤ) (rewards : List Reward)
    (transfers : List Transfer) (exchangeFlows : List Flow)
    (topReceivers : List Addr) : Analysis :=
  let a0 := initialAnalysis now
  let a1 := analyzeRewards tz rewards a0
  let a2 := analyzeTransfers transfers a1
  let a3 := analyzeExchangeFlows cfg tz exchangeFlows a2
  let a4 := calculateSellPressure a3
  let a5 := identifyPatterns cfg tz a4 topReceivers
  generateTrends a5

/-! ## Collection layer (`src/collectors/*.js`)

The pagination logic only inspects the length of each returned page and
concatenates successfully returned records, so the upstream service is
abstracted as `server : ℕ → List α` mapping a page index to that page's record
list.  Both results and the list of issued page requests are returned so that
termination behaviour can be stated.  The JS `while (true)` loop is given an
explicit iteration budget `fuel`; all stated properties hold for every
sufficiently large budget. -/

/-- Page size `rowsPerPage = 100` of `fetchTransfersForAddress`. -/
def rowsPerPage : ℕ := 100

/-- Loop body of `fetchTransfersForAddress`: request page `page`; an empty page
ends the loop contributing nothing; a page shorter than `rowsPerPage` ends the
loop after contributing its records; a full page contributes its records and
the loop continues with `page + 1`. -/
def fetchTransfersLoop {α : Type} (server : ℕ → List α) :
    ℕ → ℕ → List α × List ℕ
  | 0, _ => ([], [])
  | fuel + 1, page =>
      let data := server page
      if data.length = 0 then ([], [page])
      else if data.length < rowsPerPage then (data, [page])
      else
        let rest := fetchTransfersLoop server fuel (page + 1)
        (data ++ rest.1, page :: rest.2)

/-- Embedding of `TransferCollector.fetchTransfersForAddress`: paginate from
page 0.  Returns the collected records and the issued page indices. -/
def fetchTransfersForAddress {α : Type} (server : ℕ → List α) (fuel : ℕ) :
    List α × List ℕ :=
  fetchTransfersLoop server fuel 0

/-- The fixed row count of the per-address reward request in
`RewardCollector.fetchRecentRewards` (`row: 20, page: 0`). -/
def rewardRowsPerPage : ℕ := 20

/-- A raw reward record as returned by the reward endpoint. -/
structure RewardRecord where
  amount : ℚ
  blockTimestamp : ℤ
  deriving DecidableEq, Repr

/-- The per-address reward lookup inside `fetchRecentRewards`: a single request
for page 0 with `row: 20` is issued — there is no pagination loop — and the
returned records are filtered to the `[startTime, endTime]` window.  The
second component is the list of issued page indices. -/
def fetchRewardsForAddress (server : ℕ → List RewardRecord)
    (startTime endTime : ℤ) : List RewardRecord × List ℕ :=
  ((server 0).filter
      (fun r => decide (startTime ≤ r.blockTimestamp) &&
                decide (r.blockTimestamp ≤ endTime)),
   [0])

/-! ## Reference functions for the amended claims

These restate, directly over the *input* event lists, values that the analyzer
computes through its internal maps; the theorems below connect the two. -/

/-- The reward the quick-sell check compares against, computed from the input
list: the last reward of the address in input order (not the most recent by
timestamp). -/
def lastRewardFor (rewards : List Reward) (addr : Addr) : Option Reward :=
  (rewards.filter (fun r => r.address == addr)).getLast?

/-- Whether a flow increments the quick-seller counter: it is a deposit, its
sender has at least one reward in the input, and the difference between the
flow's timestamp and the sender's last input-order reward timestamp is below
the rapid-sell threshold (the difference may be zero or negative). -/
def isQuickFlow (cfg : Config) (rewards : List Reward) (f : Flow) : Bool :=
  f.type == FlowType.deposit &&
  (match lastRewardFor rewards f.fromAddr with
   | some r => decide (f.timestamp - r.timestamp < cfg.rapidSellThreshold)
   | none => false)

/-- The list of recorded time differences (`timeToExchange`), computed from the
input lists in flow order. -/
def timeDiffsOf (rewards : List Reward) (flows : List Flow) : List ℤ :=
  flows.filterMap (fun f =>
    if f.type == FlowType.deposit then
      (lastRewardFor rewards f.fromAddr).map (fun r => f.timestamp - r.timestamp)
    else none)

/-- The sum of the deposit amounts of a flow list (what `summary.exchangeFlow`
accumulates). -/
def depositTotal (flows : List Flow) : ℚ :=
  ((flows.filter (fun f => f.type == FlowType.deposit)).map (·.amount)).sum

/-- The number of deposit flows in the hour bucket `h` whose amount strictly
exceeds the large-flow threshold. -/
def largeDepositCount (cfg : Config) (tz : ℤ) (flows : List Flow) (h : ℤ) : ℕ :=
  flows.countP (fun f =>
    f.type == FlowType.deposit &&
    decide (cfg.largeFlowThreshold < f.amount) &&
    getHoursLocal tz f.timestamp == h)

/-! ## Helper definitions used by the statements and proofs -/

/-- The default (absent) reward aggregate. -/
def emptyAddrRewards : AddrRewards := { total := 0, count := 0, rewards := [] }

/-- The accumulation `analyzeRewards` performs on one aggregate. -/
def pushReward (agg : AddrRewards) (r : Reward) : AddrRewards :=
  { total := agg.total + r.amount, count := agg.count + 1,
    rewards := agg.rewards ++ [r] }

/-- Replay a list of rewards into an optional aggregate (the per-address view
of `analyzeRewards`). -/
def extendAgg (o : Option AddrRewards) : List Reward → Option AddrRewards
  | [] => o
  | r :: rs => extendAgg (some (pushReward (o.getD emptyAddrRewards) r)) rs

/-- Whether a flow increments `quickSellers`, phrased against a given
reward-aggregate map: a deposit whose sender has a last-pushed reward with
time difference below the threshold. -/
def quickTestOn (cfg : Config) (rba : List (Addr × AddrRewards)) (f : Flow) :
    Bool :=
  f.type == FlowType.deposit &&
  (match timeDiffOf rba f with
   | some td => decide (td < cfg.rapidSellThreshold)
   | none => false)

/-- The time differences `analyzeExchangeFlows` records, phrased against a
given reward-aggregate map. -/
def tdListOn (rba : List (Addr × AddrRewards)) (flows : List Flow) : List ℤ :=
  flows.filterMap (fun f =>
    if f.type == FlowType.deposit then timeDiffOf rba f else none)

/-- Flatten an exchange-flow map into its (address, flow) pairs in iteration
order. -/
def totalFlowPairs (efa : List (Addr × AddrFlows)) : List (Addr × Flow) :=
  efa.flatMap (fun p => p.2.flows.map (fun f => (p.1, f)))

/-- The per-pair accumulation of `largeSellersByHour`. -/
def addLargeSeller (cfg : Config) (tz : ℤ) (m : List (ℤ × List LargeSeller))
    (pr : Addr × Flow) : List (ℤ × List LargeSeller) :=
  if cfg.largeFlowThreshold < pr.2.amount then
    let hour := getHoursLocal tz pr.2.timestamp
    mapSet m hour (((mapGet m hour).getD []) ++
      [{ address := pr.1, amount := pr.2.amount, exchange := pr.2.exchange.name }])
  else m

/-- Length of an hour bucket of a seller grouping. -/
def bucketLen (m : List (ℤ × List LargeSeller)) (h : ℤ) : ℕ :=
  ((mapGet m h).getD []).length

/-- Overwrite the three clock-derived fields of an analysis. -/
def setTime (a : Analysis) (t ps pe : ℤ) : Analysis :=
  { a with timestamp := t, periodStart := ps, periodEnd := pe }

/-! ## Map lemmas -/

theorem mapGet_nil {κ ν : Type} [DecidableEq κ] (k : κ) :
    mapGet ([] : List (κ × ν)) k = none := rfl

theorem mapGet_cons {κ ν : Type} [DecidableEq κ] (p : κ × ν)
    (m : List (κ × ν)) (k : κ) :
    mapGet (p :: m) k = if p.1 = k then some p.2 else mapGet m k := by
  by_cases h : p.1 = k <;> simp [mapGet, List.find?_cons, h]

theorem mapGet_mapSet_self {κ ν : Type} [DecidableEq κ] (m : List (κ × ν))
    (k : κ) (v : ν) : mapGet (mapSet m k v) k = some v := by
  induction m with
  | nil => simp [mapSet, mapGet_cons, mapGet_nil]
  | cons p rest ih =>
      by_cases h : p.1 = k
      · obtain ⟨k', v'⟩ := p
        simp only at h
        simp [mapSet, h, mapGet_cons]
      · obtain ⟨k', v'⟩ := p
        simp only at h
        simp [mapSet, h, mapGet_cons, ih]

theorem mapGet_mapSet_ne {κ ν : Type} [DecidableEq κ] (m : List (κ × ν))
    (k k' : κ) (v : ν) (h : k ≠ k') :
    mapGet (mapSet m k v) k' = mapGet m k' := by
  induction m with
  | nil => simp [mapSet, mapGet_cons, mapGet_nil, h]
  | cons p rest ih =>
      by_cases hp : p.1 = k
      · obtain ⟨k₀, v₀⟩ := p
        simp only at hp
        subst hp
        simp [mapSet, mapGet_cons, h]
      · obtain ⟨k₀, v₀⟩ := p
        simp only at hp
        simp [mapSet, hp, mapGet_cons, ih]

/-- Keys after `mapSet`: unchanged when the key is already bound, appended
otherwise. -/
theorem mapSet_keys {κ ν : Type} [DecidableEq κ] (m : List (κ × ν))
    (k : κ) (v : ν) :
    (mapSet m k v).map Prod.fst =
      if (mapGet m k).isSome then m.map Prod.fst else m.map Prod.fst ++ [k] := by
  induction m with
  | nil => simp [mapSet, mapGet_nil]
  | cons p rest ih =>
      by_cases hp : p.1 = k
      · obtain ⟨k₀, v₀⟩ := p
        simp only at hp
        subst hp
        simp [mapSet, mapGet_cons]
      · obtain ⟨k₀, v₀⟩ := p
        simp only at hp
        simp [mapSet, hp, mapGet_cons, ih]
        split <;> simp

/-- Membership in the key list decides `mapGet`. -/
theorem mapGet_eq_none_iff {κ ν : Type} [DecidableEq κ] (m : List (κ × ν))
    (k : κ) : mapGet m k = none ↔ k ∉ m.map Prod.fst := by
  induction m with
  | nil => simp [mapGet_nil]
  | cons p rest ih =>
      rw [mapGet_cons]
      by_cases h : p.1 = k
      · simp [h]
      · simp [h, ih, Ne.symm h]

/-! ## Generic fold lemmas -/

/-- A projection left unchanged by every step is left unchanged by the fold. -/
theorem foldl_proj_eq {α β γ : Type} (f : β → α → β) (proj : β → γ)
    (h : ∀ b x, proj (f b x) = proj b) :
    ∀ (l : List α) (b : β), proj (l.foldl f b) = proj b := by
  intro l
  induction l with
  | nil => intro b; rfl
  | cons x xs ih => intro b; rw [List.foldl_cons, ih, h]

/-! ## Pass lemmas: `analyzeRewards` -/

theorem analyzeRewards_totalRewards (tz : ℤ) :
    ∀ (rewards : List Reward) (a : Analysis),
      (analyzeRewards tz rewards a).summary.totalRewards =
        a.summary.totalRewards + (rewards.map Reward.amount).sum := by
  intro rewards
  induction rewards with
  | nil => intro a; simp [analyzeRewards]
  | cons r rs ih =>
      intro a
      have : analyzeRewards tz (r :: rs) a =
          analyzeRewards tz rs (analyzeRewardsStep tz a r) := rfl
      rw [this, ih]
      have hstep : (analyzeRewardsStep tz a r).summary.totalRewards =
          a.summary.totalRewards + r.amount := rfl
      rw [hstep]
      simp [add_assoc]

/-- Per-address view of the reward pass: the aggregate of `addr` after the
pass is the aggregate before, extended by exactly the input rewards addressed
to `addr`, in input order. -/
theorem analyzeRewards_mapGet (tz : ℤ) :
    ∀ (rewards : List Reward) (a : Analysis) (addr : Addr),
      mapGet (analyzeRewards tz rewards a).details.rewardsByAddress addr =
        extendAgg (mapGet a.details.rewardsByAddress addr)
          (rewards.filter (fun r => r.address == addr)) := by
  intro rewards
  induction rewards with
  | nil => intro a addr; rfl
  | cons r rs ih =>
      intro a addr
      have hrec : analyzeRewards tz (r :: rs) a =
          analyzeRewards tz rs (analyzeRewardsStep tz a r) := rfl
      rw [hrec, ih]
      by_cases h : r.address = addr
      · subst h
        have hget : mapGet (analyzeRewardsStep tz a r).details.rewardsByAddress
            r.address = some (pushReward
              ((mapGet a.details.rewardsByAddress r.address).getD emptyAddrRewards) r) := by
          simp only [analyzeRewardsStep]
          exact mapGet_mapSet_self _ _ _
        rw [hget]
        simp [extendAgg]
      · have hget : mapGet (analyzeRewardsStep tz a r).details.rewardsByAddress
            addr = mapGet a.details.rewardsByAddress addr := by
          simp only [analyzeRewardsStep]
          exact mapGet_mapSet_ne _ _ _ _ h
        rw [hget]
        have : (r :: rs).filter (fun x => x.address == addr) =
            rs.filter (fun x => x.address == addr) := by
          simp [List.filter_cons, h]
        rw [this]

/-- Replaying onto a present aggregate yields a present aggregate with the
rewards appended. -/
theorem extendAgg_some : ∀ (l : List Reward) (agg : AddrRewards),
    extendAgg (some agg) l =
      some { total := agg.total + (l.map Reward.amount).sum,
             count := agg.count + l.length,
             rewards := agg.rewards ++ l } := by
  intro l
  induction l with
  | nil => intro agg; simp [extendAgg]
  | cons r rs ih =>
      intro agg
      rw [extendAgg, Option.getD_some, ih]
      simp [pushReward, add_assoc, Nat.add_comm]

/-- Replaying onto an absent aggregate yields the rewards themselves (or
stays absent when there are none). -/
theorem extendAgg_none : ∀ (l : List Reward),
    extendAgg none l =
      if l.isEmpty then none
      else some { total := (l.map Reward.amount).sum, count := l.length,
                  rewards := l } := by
  intro l
  cases l with
  | nil => rfl
  | cons r rs =>
      rw [extendAgg, Option.getD_none, extendAgg_some]
      simp [pushReward, emptyAddrRewards, Nat.add_comm]

theorem analyzeRewards_efa (tz : ℤ) (rewards : List Reward) (a : Analysis) :
    (analyzeRewards tz rewards a).details.exchangeFlowsByAddress =
      a.details.exchangeFlowsByAddress :=
  foldl_proj_eq (analyzeRewardsStep tz) (fun x => x.details.exchangeFlowsByAddress)
    (fun _ _ => rfl) rewards a

theorem analyzeRewards_tba (tz : ℤ) (rewards : List Reward) (a : Analysis) :
    (analyzeRewards tz rewards a).details.transfersByAddress =
      a.details.transfersByAddress :=
  foldl_proj_eq (analyzeRewardsStep tz) (fun x => x.details.transfersByAddress)
    (fun _ _ => rfl) rewards a

theorem analyzeRewards_hourlyExchangeFlows (tz : ℤ) (rewards : List Reward)
    (a : Analysis) :
    (analyzeRewards tz rewards a).trends.hourlyExchangeFlows =
      a.trends.hourlyExchangeFlows :=
  foldl_proj_eq (analyzeRewardsStep tz) (fun x => x.trends.hourlyExchangeFlows)
    (fun _ _ => rfl) rewards a

theorem analyzeRewards_exchangeFlow (tz : ℤ) (rewards : List Reward)
    (a : Analysis) :
    (analyzeRewards tz rewards a).summary.exchangeFlow =
      a.summary.exchangeFlow :=
  foldl_proj_eq (analyzeRewardsStep tz) (fun x => x.summary.exchangeFlow) (fun _ _ => rfl) rewards a

theorem analyzeRewards_quickSellers (tz : ℤ) (rewards : List Reward)
    (a : Analysis) :
    (analyzeRewards tz rewards a).summary.quickSellers =
      a.summary.quickSellers :=
  foldl_proj_eq (analyzeRewardsStep tz) (fun x => x.summary.quickSellers) (fun _ _ => rfl) rewards a

theorem analyzeRewards_holders (tz : ℤ) (rewards : List Reward) (a : Analysis) :
    (analyzeRewards tz rewards a).summary.holders = a.summary.holders :=
  foldl_proj_eq (analyzeRewardsStep tz) (fun x => x.summary.holders) (fun _ _ => rfl) rewards a

theorem analyzeRewards_spp (tz : ℤ) (rewards : List Reward) (a : Analysis) :
    (analyzeRewards tz rewards a).summary.sellPressurePercent =
      a.summary.sellPressurePercent :=
  foldl_proj_eq (analyzeRewardsStep tz) (fun x => x.summary.sellPressurePercent)
    (fun _ _ => rfl) rewards a

theorem analyzeRewards_avg (tz : ℤ) (rewards : List Reward) (a : Analysis) :
    (analyzeRewards tz rewards a).summary.averageTimeToExchange =
      a.summary.averageTimeToExchange :=
  foldl_proj_eq (analyzeRewardsStep tz) (fun x => x.summary.averageTimeToExchange)
    (fun _ _ => rfl) rewards a

/-! ## Pass lemmas: `analyzeTransfers` -/

theorem analyzeTransfers_rba (ts : List Transfer) (a : Analysis) :
    (analyzeTransfers ts a).details.rewardsByAddress =
      a.details.rewardsByAddress :=
  foldl_proj_eq analyzeTransfersStep (fun x => x.details.rewardsByAddress) (fun _ _ => rfl) ts a

theorem analyzeTransfers_efa (ts : List Transfer) (a : Analysis) :
    (analyzeTransfers ts a).details.exchangeFlowsByAddress =
      a.details.exchangeFlowsByAddress :=
  foldl_proj_eq analyzeTransfersStep (fun x => x.details.exchangeFlowsByAddress)
    (fun _ _ => rfl) ts a

theorem analyzeTransfers_trends (ts : List Transfer) (a : Analysis) :
    (analyzeTransfers ts a).trends = a.trends :=
  foldl_proj_eq analyzeTransfersStep (fun x => x.trends) (fun _ _ => rfl) ts a

theorem analyzeTransfers_totalRewards (ts : List Transfer) (a : Analysis) :
    (analyzeTransfers ts a).summary.totalRewards = a.summary.totalRewards :=
  foldl_proj_eq analyzeTransfersStep (fun x => x.summary.totalRewards) (fun _ _ => rfl) ts a

theorem analyzeTransfers_exchangeFlow (ts : List Transfer) (a : Analysis) :
    (analyzeTransfers ts a).summary.exchangeFlow = a.summary.exchangeFlow :=
  foldl_proj_eq analyzeTransfersStep (fun x => x.summary.exchangeFlow) (fun _ _ => rfl) ts a

theorem analyzeTransfers_quickSellers (ts : List Transfer) (a : Analysis) :
    (analyzeTransfers ts a).summary.quickSellers = a.summary.quickSellers :=
  foldl_proj_eq analyzeTransfersStep (fun x => x.summary.quickSellers) (fun _ _ => rfl) ts a

theorem analyzeTransfers_holders (ts : List Transfer) (a : Analysis) :
    (analyzeTransfers ts a).summary.holders = a.summary.holders :=
  foldl_proj_eq analyzeTransfersStep (fun x => x.summary.holders) (fun _ _ => rfl) ts a

theorem analyzeTransfers_spp (ts : List Transfer) (a : Analysis) :
    (analyzeTransfers ts a).summary.sellPressurePercent =
      a.summary.sellPressurePercent :=
  foldl_proj_eq analyzeTransfersStep (fun x => x.summary.sellPressurePercent)
    (fun _ _ => rfl) ts a

theorem analyzeTransfers_avg (ts : List Transfer) (a : Analysis) :
    (analyzeTransfers ts a).summary.averageTimeToExchange =
      a.summary.averageTimeToExchange :=
  foldl_proj_eq analyzeTransfersStep (fun x => x.summary.averageTimeToExchange)
    (fun _ _ => rfl) ts a

/-- Per-address view of the transfer pass: the accumulated outgoing total of
`addr` grows by exactly the sum of the input transfers sent from `addr`. -/
theorem analyzeTransfers_total : ∀ (ts : List Transfer) (a : Analysis)
    (addr : Addr),
    ((mapGet (analyzeTransfers ts a).details.transfersByAddress addr).map
        AddrTransfers.total).getD 0 =
      ((mapGet a.details.transfersByAddress addr).map AddrTransfers.total).getD 0 +
        ((ts.filter (fun t => t.fromAddr == addr)).map Transfer.amount).sum := by
  intro ts
  induction ts with
  | nil => intro a addr; simp [analyzeTransfers]
  | cons t ts ih =>
      intro a addr
      have hrec : analyzeTransfers (t :: ts) a =
          analyzeTransfers ts (analyzeTransfersStep a t) := rfl
      rw [hrec, ih]
      by_cases h : t.fromAddr = addr
      · subst h
        have hget : mapGet (analyzeTransfersStep a t).details.transfersByAddress
            t.fromAddr = some
              { total := ((mapGet a.details.transfersByAddress t.fromAddr).getD
                  { total := 0, count := 0, transfers := [] }).total + t.amount,
                count := ((mapGet a.details.transfersByAddress t.fromAddr).getD
                  { total := 0, count := 0, transfers := [] }).count + 1,
                transfers := ((mapGet a.details.transfersByAddress t.fromAddr).getD
                  { total := 0, count := 0, transfers := [] }).transfers ++ [t] } := by
          simp only [analyzeTransfersStep]
          exact mapGet_mapSet_self _ _ _
        rw [hget]
        cases hma : mapGet a.details.transfersByAddress t.fromAddr <;>
          simp [hma, List.filter_cons, add_assoc]
      · have hget : mapGet (analyzeTransfersStep a t).details.transfersByAddress
            addr = mapGet a.details.transfersByAddress addr := by
          simp only [analyzeTransfersStep]
          exact mapGet_mapSet_ne _ _ _ _ h
        rw [hget]
        have : (t :: ts).filter (fun x => x.fromAddr == addr) =
            ts.filter (fun x => x.fromAddr == addr) := by
          simp [List.filter_cons, h]
        rw [this]

/-! ## Pass lemmas: `analyzeExchangeFlows` -/

theorem aefStep_rba (cfg : Config) (tz : ℤ) (st : Analysis × List ℤ) (f : Flow) :
    (analyzeExchangeFlowsStep cfg tz st f).1.details.rewardsByAddress =
      st.1.details.rewardsByAddress := by
  by_cases hd : f.type = FlowType.deposit
  · cases htd : timeDiffOf st.1.details.rewardsByAddress f with
    | none => simp [analyzeExchangeFlowsStep, hd, htd]
    | some td =>
        by_cases hq : td < cfg.rapidSellThreshold <;>
          simp [analyzeExchangeFlowsStep, hd, htd, hq]
  · simp [analyzeExchangeFlowsStep, hd]

theorem aefStep_tba (cfg : Config) (tz : ℤ) (st : Analysis × List ℤ) (f : Flow) :
    (analyzeExchangeFlowsStep cfg tz st f).1.details.transfersByAddress =
      st.1.details.transfersByAddress := by
  by_cases hd : f.type = FlowType.deposit
  · cases htd : timeDiffOf st.1.details.rewardsByAddress f with
    | none => simp [analyzeExchangeFlowsStep, hd, htd]
    | some td =>
        by_cases hq : td < cfg.rapidSellThreshold <;>
          simp [analyzeExchangeFlowsStep, hd, htd, hq]
  · simp [analyzeExchangeFlowsStep, hd]

theorem aefStep_totalRewards (cfg : Config) (tz : ℤ) (st : Analysis × List ℤ)
    (f : Flow) :
    (analyzeExchangeFlowsStep cfg tz st f).1.summary.totalRewards =
      st.1.summary.totalRewards := by
  by_cases hd : f.type = FlowType.deposit
  · cases htd : timeDiffOf st.1.details.rewardsByAddress f with
    | none => simp [analyzeExchangeFlowsStep, hd, htd]
    | some td =>
        by_cases hq : td < cfg.rapidSellThreshold <;>
          simp [analyzeExchangeFlowsStep, hd, htd, hq]
  · simp [analyzeExchangeFlowsStep, hd]

theorem aefStep_holders (cfg : Config) (tz : ℤ) (st : Analysis × List ℤ)
    (f : Flow) :
    (analyzeExchangeFlowsStep cfg tz st f).1.summary.holders =
      st.1.summary.holders := by
  by_cases hd : f.type = FlowType.deposit
  · cases htd : timeDiffOf st.1.details.rewardsByAddress f with
    | none => simp [analyzeExchangeFlowsStep, hd, htd]
    | some td =>
        by_cases hq : td < cfg.rapidSellThreshold <;>
          simp [analyzeExchangeFlowsStep, hd, htd, hq]
  · simp [analyzeExchangeFlowsStep, hd]

theorem aefStep_spp (cfg : Config) (tz : ℤ) (st : Analysis × List ℤ) (f : Flow) :
    (analyzeExchangeFlowsStep cfg tz st f).1.summary.sellPressurePercent =
      st.1.summary.sellPressurePercent := by
  by_cases hd : f.type = FlowType.deposit
  · cases htd : timeDiffOf st.1.details.rewardsByAddress f with
    | none => simp [analyzeExchangeFlowsStep, hd, htd]
    | some td =>
        by_cases hq : td < cfg.rapidSellThreshold <;>
          simp [analyzeExchangeFlowsStep, hd, htd, hq]
  · simp [analyzeExchangeFlowsStep, hd]

theorem aefStep_hourlyRewards (cfg : Config) (tz : ℤ) (st : Analysis × List ℤ)
    (f : Flow) :
    (analyzeExchangeFlowsStep cfg tz st f).1.trends.hourlyRewards =
      st.1.trends.hourlyRewards := by
  by_cases hd : f.type = FlowType.deposit
  · cases htd : timeDiffOf st.1.details.rewardsByAddress f with
    | none => simp [analyzeExchangeFlowsStep, hd, htd]
    | some td =>
        by_cases hq : td < cfg.rapidSellThreshold <;>
          simp [analyzeExchangeFlowsStep, hd, htd, hq]
  · simp [analyzeExchangeFlowsStep, hd]

theorem aefStep_avg (cfg : Config) (tz : ℤ) (st : Analysis × List ℤ) (f : Flow) :
    (analyzeExchangeFlowsStep cfg tz st f).1.summary.averageTimeToExchange =
      st.1.summary.averageTimeToExchange := by
  by_cases hd : f.type = FlowType.deposit
  · cases htd : timeDiffOf st.1.details.rewardsByAddress f with
    | none => simp [analyzeExchangeFlowsStep, hd, htd]
    | some td =>
        by_cases hq : td < cfg.rapidSellThreshold <;>
          simp [analyzeExchangeFlowsStep, hd, htd, hq]
  · simp [analyzeExchangeFlowsStep, hd]

theorem aefStep_exchangeFlow (cfg : Config) (tz : ℤ) (st : Analysis × List ℤ)
    (f : Flow) :
    (analyzeExchangeFlowsStep cfg tz st f).1.summary.exchangeFlow =
      st.1.summary.exchangeFlow +
        (if f.type == FlowType.deposit then f.amount else 0) := by
  by_cases hd : f.type = FlowType.deposit
  · cases htd : timeDiffOf st.1.details.rewardsByAddress f with
    | none => simp [analyzeExchangeFlowsStep, hd, htd]
    | some td =>
        by_cases hq : td < cfg.rapidSellThreshold <;>
          simp [analyzeExchangeFlowsStep, hd, htd, hq]
  · simp [analyzeExchangeFlowsStep, hd]

theorem aefStep_quickSellers (cfg : Config) (tz : ℤ) (st : Analysis × List ℤ)
    (f : Flow) :
    (analyzeExchangeFlowsStep cfg tz st f).1.summary.quickSellers =
      st.1.summary.quickSellers +
        (if quickTestOn cfg st.1.details.rewardsByAddress f then 1 else 0) := by
  by_cases hd : f.type = FlowType.deposit
  · cases htd : timeDiffOf st.1.details.rewardsByAddress f with
    | none => simp [analyzeExchangeFlowsStep, quickTestOn, hd, htd]
    | some td =>
        by_cases hq : td < cfg.rapidSellThreshold <;>
          simp [analyzeExchangeFlowsStep, quickTestOn, hd, htd, hq]
  · simp [analyzeExchangeFlowsStep, quickTestOn, hd]

theorem aefStep_td (cfg : Config) (tz : ℤ) (st : Analysis × List ℤ) (f : Flow) :
    (analyzeExchangeFlowsStep cfg tz st f).2 =
      st.2 ++ (if f.type == FlowType.deposit then
        (timeDiffOf st.1.details.rewardsByAddress f).toList else []) := by
  by_cases hd : f.type = FlowType.deposit
  · cases htd : timeDiffOf st.1.details.rewardsByAddress f with
    | none => simp [analyzeExchangeFlowsStep, hd, htd]
    | some td =>
        by_cases hq : td < cfg.rapidSellThreshold <;>
          simp [analyzeExchangeFlowsStep, hd, htd, hq]
  · simp [analyzeExchangeFlowsStep, hd]

theorem aefFold_rba (cfg : Config) (tz : ℤ) (flows : List Flow)
    (st : Analysis × List ℤ) :
    (flows.foldl (analyzeExchangeFlowsStep cfg tz) st).1.details.rewardsByAddress =
      st.1.details.rewardsByAddress :=
  foldl_proj_eq (analyzeExchangeFlowsStep cfg tz)
    (fun x => x.1.details.rewardsByAddress) (aefStep_rba cfg tz) flows st

theorem aefFold_tba (cfg : Config) (tz : ℤ) (flows : List Flow)
    (st : Analysis × List ℤ) :
    (flows.foldl (analyzeExchangeFlowsStep cfg tz) st).1.details.transfersByAddress =
      st.1.details.transfersByAddress :=
  foldl_proj_eq (analyzeExchangeFlowsStep cfg tz)
    (fun x => x.1.details.transfersByAddress) (aefStep_tba cfg tz) flows st

theorem aefFold_totalRewards (cfg : Config) (tz : ℤ) (flows : List Flow)
    (st : Analysis × List ℤ) :
    (flows.foldl (analyzeExchangeFlowsStep cfg tz) st).1.summary.totalRewards =
      st.1.summary.totalRewards :=
  foldl_proj_eq (analyzeExchangeFlowsStep cfg tz)
    (fun x => x.1.summary.totalRewards) (aefStep_totalRewards cfg tz) flows st

theorem aefFold_holders (cfg : Config) (tz : ℤ) (flows : List Flow)
    (st : Analysis × List ℤ) :
    (flows.foldl (analyzeExchangeFlowsStep cfg tz) st).1.summary.holders =
      st.1.summary.holders :=
  foldl_proj_eq (analyzeExchangeFlowsStep cfg tz)
    (fun x => x.1.summary.holders) (aefStep_holders cfg tz) flows st

theorem aefFold_spp (cfg : Config) (tz : ℤ) (flows : List Flow)
    (st : Analysis × List ℤ) :
    (flows.foldl (analyzeExchangeFlowsStep cfg tz) st).1.summary.sellPressurePercent =
      st.1.summary.sellPressurePercent :=
  foldl_proj_eq (analyzeExchangeFlowsStep cfg tz)
    (fun x => x.1.summary.sellPressurePercent) (aefStep_spp cfg tz) flows st

theorem aefFold_hourlyRewards (cfg : Config) (tz : ℤ) (flows : List Flow)
    (st : Analysis × List ℤ) :
    (flows.foldl (analyzeExchangeFlowsStep cfg tz) st).1.trends.hourlyRewards =
      st.1.trends.hourlyRewards :=
  foldl_proj_eq (analyzeExchangeFlowsStep cfg tz)
    (fun x => x.1.trends.hourlyRewards) (aefStep_hourlyRewards cfg tz) flows st

/-- Helper: the deposit total of a cons. -/
theorem depositTotal_cons (f : Flow) (fs : List Flow) :
    depositTotal (f :: fs) =
      (if f.type == FlowType.deposit then f.amount else 0) + depositTotal fs := by
  by_cases hd : f.type = FlowType.deposit <;>
    simp [depositTotal, List.filter_cons, hd]

theorem aefFold_exchangeFlow (cfg : Config) (tz : ℤ) :
    ∀ (flows : List Flow) (st : Analysis × List ℤ),
    (flows.foldl (analyzeExchangeFlowsStep cfg tz) st).1.summary.exchangeFlow =
      st.1.summary.exchangeFlow + depositTotal flows := by
  intro flows
  induction flows with
  | nil => intro st; simp [depositTotal]
  | cons f fs ih =>
      intro st
      rw [List.foldl_cons, ih, aefStep_exchangeFlow, depositTotal_cons]
      ring

theorem aefFold_quickSellers (cfg : Config) (tz : ℤ) :
    ∀ (flows : List Flow) (st : Analysis × List ℤ),
    (flows.foldl (analyzeExchangeFlowsStep cfg tz) st).1.summary.quickSellers =
      st.1.summary.quickSellers +
        flows.countP (quickTestOn cfg st.1.details.rewardsByAddress) := by
  intro flows
  induction flows with
  | nil => intro st; simp
  | cons f fs ih =>
      intro st
      rw [List.foldl_cons, ih, aefStep_rba, aefStep_quickSellers,
        List.countP_cons]
      by_cases hq : quickTestOn cfg st.1.details.rewardsByAddress f <;>
        simp [hq] <;> omega

theorem aefFold_td (cfg : Config) (tz : ℤ) :
    ∀ (flows : List Flow) (st : Analysis × List ℤ),
    (flows.foldl (analyzeExchangeFlowsStep cfg tz) st).2 =
      st.2 ++ tdListOn st.1.details.rewardsByAddress flows := by
  intro flows
  induction flows with
  | nil => intro st; simp [tdListOn]
  | cons f fs ih =>
      intro st
      rw [List.foldl_cons, ih, aefStep_rba, aefStep_td]
      by_cases hd : f.type = FlowType.deposit
      · cases htd : timeDiffOf st.1.details.rewardsByAddress f <;>
          simp [tdListOn, List.filterMap_cons, hd, htd]
      · simp [tdListOn, List.filterMap_cons, hd]

/-- Shape of the exchange-flow map after one step: for a deposit the sender's
aggregate gains the flow's amount and the flow itself (and possibly the
quick-sell flag); otherwise the map is untouched. -/
theorem aefStep_efa (cfg : Config) (tz : ℤ) (st : Analysis × List ℤ) (f : Flow) :
    (analyzeExchangeFlowsStep cfg tz st f).1.details.exchangeFlowsByAddress =
      if f.type == FlowType.deposit then
        mapSet st.1.details.exchangeFlowsByAddress f.fromAddr
          { total := ((mapGet st.1.details.exchangeFlowsByAddress f.fromAddr).getD
              { total := 0, count := 0, flows := [], quickSell := false }).total + f.amount,
            count := ((mapGet st.1.details.exchangeFlowsByAddress f.fromAddr).getD
              { total := 0, count := 0, flows := [], quickSell := false }).count + 1,
            flows := ((mapGet st.1.details.exchangeFlowsByAddress f.fromAddr).getD
              { total := 0, count := 0, flows := [], quickSell := false }).flows ++ [f],
            quickSell :=
              if quickTestOn cfg st.1.details.rewardsByAddress f then true
              else ((mapGet st.1.details.exchangeFlowsByAddress f.fromAddr).getD
                { total := 0, count := 0, flows := [], quickSell := false }).quickSell }
      else st.1.details.exchangeFlowsByAddress := by
  by_cases hd : f.type = FlowType.deposit
  · cases htd : timeDiffOf st.1.details.rewardsByAddress f with
    | none => simp [analyzeExchangeFlowsStep, quickTestOn, hd, htd]
    | some td =>
        by_cases hq : td < cfg.rapidSellThreshold <;>
          simp [analyzeExchangeFlowsStep, quickTestOn, hd, htd, hq]
  · simp [analyzeExchangeFlowsStep, quickTestOn, hd]

/-- Per-address view of the exchange-flow pass: the flows list, the
accumulated total, and the presence of an entry for `addr` are determined by
the deposit flows sent from `addr`. -/
theorem aefFold_mapGet (cfg : Config) (tz : ℤ) :
    ∀ (flows : List Flow) (st : Analysis × List ℤ) (addr : Addr),
    (((mapGet (flows.foldl (analyzeExchangeFlowsStep cfg tz)
          st).1.details.exchangeFlowsByAddress addr).map AddrFlows.flows).getD [] =
      ((mapGet st.1.details.exchangeFlowsByAddress addr).map AddrFlows.flows).getD []
        ++ flows.filter (fun f => f.type == FlowType.deposit && f.fromAddr == addr)) ∧
    (((mapGet (flows.foldl (analyzeExchangeFlowsStep cfg tz)
          st).1.details.exchangeFlowsByAddress addr).map AddrFlows.total).getD 0 =
      ((mapGet st.1.details.exchangeFlowsByAddress addr).map AddrFlows.total).getD 0
        + ((flows.filter (fun f => f.type == FlowType.deposit &&
            f.fromAddr == addr)).map Flow.amount).sum) ∧
    (mapGet (flows.foldl (analyzeExchangeFlowsStep cfg tz)
          st).1.details.exchangeFlowsByAddress addr = none ↔
      (mapGet st.1.details.exchangeFlowsByAddress addr = none ∧
        flows.filter (fun f => f.type == FlowType.deposit &&
          f.fromAddr == addr) = [])) := by
  intro flows
  induction flows with
  | nil => intro st addr; simp
  | cons f fs ih =>
      intro st addr
      rw [List.foldl_cons]
      obtain ⟨ihf, iht, ihp⟩ := ih (analyzeExchangeFlowsStep cfg tz st f) addr
      by_cases hd : f.type = FlowType.deposit
      · by_cases haddr : f.fromAddr = addr
        · have hself :
              mapGet (analyzeExchangeFlowsStep cfg tz
                st f).1.details.exchangeFlowsByAddress addr = some
                { total := ((mapGet st.1.details.exchangeFlowsByAddress addr).getD
                    { total := 0, count := 0, flows := [], quickSell := false }).total + f.amount,
                  count := ((mapGet st.1.details.exchangeFlowsByAddress addr).getD
                    { total := 0, count := 0, flows := [], quickSell := false }).count + 1,
                  flows := ((mapGet st.1.details.exchangeFlowsByAddress addr).getD
                    { total := 0, count := 0, flows := [], quickSell := false }).flows ++ [f],
                  quickSell :=
                    if quickTestOn cfg st.1.details.rewardsByAddress f then true
                    else ((mapGet st.1.details.exchangeFlowsByAddress addr).getD
                      { total := 0, count := 0, flows := [], quickSell := false }).quickSell } := by
            rw [aefStep_efa]
            simp only [hd]
            rw [← haddr]
            simp [mapGet_mapSet_self]
          refine ⟨?_, ?_, ?_⟩
          · rw [ihf, hself]
            cases hma : mapGet st.1.details.exchangeFlowsByAddress addr <;>
              simp [hma, List.filter_cons, hd, haddr]
          · rw [iht, hself]
            cases hma : mapGet st.1.details.exchangeFlowsByAddress addr <;>
              simp [hma, List.filter_cons, hd, haddr, add_assoc]
          · rw [ihp, hself]
            simp [List.filter_cons, hd, haddr]
        · have hne :
              mapGet (analyzeExchangeFlowsStep cfg tz
                st f).1.details.exchangeFlowsByAddress addr =
              mapGet st.1.details.exchangeFlowsByAddress addr := by
            rw [aefStep_efa]
            simp only [hd]
            simp [mapGet_mapSet_ne _ _ _ _ haddr]
          refine ⟨?_, ?_, ?_⟩
          · rw [ihf, hne]; simp [List.filter_cons, haddr]
          · rw [iht, hne]; simp [List.filter_cons, haddr]
          · rw [ihp, hne]; simp [List.filter_cons, haddr]
      · have hne :
            mapGet (analyzeExchangeFlowsStep cfg tz
              st f).1.details.exchangeFlowsByAddress addr =
            mapGet st.1.details.exchangeFlowsByAddress addr := by
          rw [aefStep_efa]
          simp [hd]
        refine ⟨?_, ?_, ?_⟩
        · rw [ihf, hne]; simp [List.filter_cons, hd]
        · rw [iht, hne]; simp [List.filter_cons, hd]
        · rw [ihp, hne]; simp [List.filter_cons, hd]

/-- The final average-time step of `analyzeExchangeFlows` only touches
`summary.averageTimeToExchange`; its details are those of the fold. -/
theorem analyzeExchangeFlows_details (cfg : Config) (tz : ℤ) (flows : List Flow)
    (a : Analysis) :
    (analyzeExchangeFlows cfg tz flows a).details =
      (flows.foldl (analyzeExchangeFlowsStep cfg tz) (a, [])).1.details := by
  unfold analyzeExchangeFlows
  dsimp only
  split <;> rfl

theorem analyzeExchangeFlows_trends (cfg : Config) (tz : ℤ) (flows : List Flow)
    (a : Analysis) :
    (analyzeExchangeFlows cfg tz flows a).trends =
      (flows.foldl (analyzeExchangeFlowsStep cfg tz) (a, [])).1.trends := by
  unfold analyzeExchangeFlows
  dsimp only
  split <;> rfl

theorem analyzeExchangeFlows_totalRewards (cfg : Config) (tz : ℤ)
    (flows : List Flow) (a : Analysis) :
    (analyzeExchangeFlows cfg tz flows a).summary.totalRewards =
      a.summary.totalRewards := by
  have h : (analyzeExchangeFlows cfg tz flows a).summary.totalRewards =
      (flows.foldl (analyzeExchangeFlowsStep cfg tz) (a, [])).1.summary.totalRewards := by
    unfold analyzeExchangeFlows
    dsimp only
    split <;> rfl
  rw [h, aefFold_totalRewards]

theorem analyzeExchangeFlows_exchangeFlow (cfg : Config) (tz : ℤ)
    (flows : List Flow) (a : Analysis) :
    (analyzeExchangeFlows cfg tz flows a).summary.exchangeFlow =
      a.summary.exchangeFlow + depositTotal flows := by
  have h : (analyzeExchangeFlows cfg tz flows a).summary.exchangeFlow =
      (flows.foldl (analyzeExchangeFlowsStep cfg tz) (a, [])).1.summary.exchangeFlow := by
    unfold analyzeExchangeFlows
    dsimp only
    split <;> rfl
  rw [h, aefFold_exchangeFlow]

theorem analyzeExchangeFlows_quickSellers (cfg : Config) (tz : ℤ)
    (flows : List Flow) (a : Analysis) :
    (analyzeExchangeFlows cfg tz flows a).summary.quickSellers =
      a.summary.quickSellers +
        flows.countP (quickTestOn cfg a.details.rewardsByAddress) := by
  have h : (analyzeExchangeFlows cfg tz flows a).summary.quickSellers =
      (flows.foldl (analyzeExchangeFlowsStep cfg tz) (a, [])).1.summary.quickSellers := by
    unfold analyzeExchangeFlows
    dsimp only
    split <;> rfl
  rw [h, aefFold_quickSellers]

theorem analyzeExchangeFlows_holders (cfg : Config) (tz : ℤ)
    (flows : List Flow) (a : Analysis) :
    (analyzeExchangeFlows cfg tz flows a).summary.holders =
      a.summary.holders := by
  have h : (analyzeExchangeFlows cfg tz flows a).summary.holders =
      (flows.foldl (analyzeExchangeFlowsStep cfg tz) (a, [])).1.summary.holders := by
    unfold analyzeExchangeFlows
    dsimp only
    split <;> rfl
  rw [h, aefFold_holders]

theorem analyzeExchangeFlows_spp (cfg : Config) (tz : ℤ)
    (flows : List Flow) (a : Analysis) :
    (analyzeExchangeFlows cfg tz flows a).summary.sellPressurePercent =
      a.summary.sellPressurePercent := by
  have h : (analyzeExchangeFlows cfg tz flows a).summary.sellPressurePercent =
      (flows.foldl (analyzeExchangeFlowsStep cfg tz) (a, [])).1.summary.sellPressurePercent := by
    unfold analyzeExchangeFlows
    dsimp only
    split <;> rfl
  rw [h, aefFold_spp]

/-- The average time to exchange after the pass: the mean of the recorded time
differences divided by 3600, or the previous value when none were recorded. -/
theorem analyzeExchangeFlows_avg (cfg : Config) (tz : ℤ) (flows : List Flow)
    (a : Analysis) :
    (analyzeExchangeFlows cfg tz flows a).summary.averageTimeToExchange =
      if 0 < (tdListOn a.details.rewardsByAddress flows).length then
        (((tdListOn a.details.rewardsByAddress flows).map (fun d => (d : ℚ))).sum /
          ((tdListOn a.details.rewardsByAddress flows).length : ℚ)) / 3600
      else a.summary.averageTimeToExchange := by
  have htd : (flows.foldl (analyzeExchangeFlowsStep cfg tz) (a, [])).2 =
      tdListOn a.details.rewardsByAddress flows := by
    have := aefFold_td cfg tz flows (a, [])
    simpa using this
  have havg : (flows.foldl (analyzeExchangeFlowsStep cfg tz)
      (a, [])).1.summary.averageTimeToExchange = a.summary.averageTimeToExchange :=
    foldl_proj_eq (analyzeExchangeFlowsStep cfg tz)
      (fun x => x.1.summary.averageTimeToExchange) (aefStep_avg cfg tz) flows (a, [])
  unfold analyzeExchangeFlows
  dsimp only
  rw [htd]
  split
  · rfl
  · exact havg

/-! ## Pass lemmas: `calculateSellPressure` -/

theorem calculateSellPressure_totalRewards (a : Analysis) :
    (calculateSellPressure a).summary.totalRewards = a.summary.totalRewards := by
  unfold calculateSellPressure
  split <;> rfl

theorem calculateSellPressure_exchangeFlow (a : Analysis) :
    (calculateSellPressure a).summary.exchangeFlow = a.summary.exchangeFlow := by
  unfold calculateSellPressure
  split <;> rfl

theorem calculateSellPressure_quickSellers (a : Analysis) :
    (calculateSellPressure a).summary.quickSellers = a.summary.quickSellers := by
  unfold calculateSellPressure
  split <;> rfl

theorem calculateSellPressure_avg (a : Analysis) :
    (calculateSellPressure a).summary.averageTimeToExchange =
      a.summary.averageTimeToExchange := by
  unfold calculateSellPressure
  split <;> rfl

theorem calculateSellPressure_spp (a : Analysis) :
    (calculateSellPressure a).summary.sellPressurePercent =
      if 0 < a.summary.totalRewards then
        a.summary.exchangeFlow / a.summary.totalRewards * 100
      else a.summary.sellPressurePercent := by
  unfold calculateSellPressure
  split <;> simp_all

theorem calculateSellPressure_holders (a : Analysis) :
    (calculateSellPressure a).summary.holders = a.summary.holders +
      (a.details.rewardsByAddress.map Prod.fst).countP
        (fun addr => (mapGet a.details.exchangeFlowsByAddress addr).isNone) := by
  unfold calculateSellPressure
  split <;> rfl

theorem calculateSellPressure_rba (a : Analysis) :
    (calculateSellPressure a).details.rewardsByAddress =
      a.details.rewardsByAddress := rfl

theorem calculateSellPressure_efa (a : Analysis) :
    (calculateSellPressure a).details.exchangeFlowsByAddress =
      a.details.exchangeFlowsByAddress := rfl

theorem calculateSellPressure_tba (a : Analysis) :
    (calculateSellPressure a).details.transfersByAddress =
      a.details.transfersByAddress := rfl

theorem calculateSellPressure_trends (a : Analysis) :
    (calculateSellPressure a).trends = a.trends := rfl

/-! ## Pass lemmas: `identifyPatterns` and `generateTrends` -/

theorem identifyPatterns_summary (cfg : Config) (tz : ℤ) (a : Analysis)
    (tr : List Addr) : (identifyPatterns cfg tz a tr).summary = a.summary := rfl

theorem identifyPatterns_rba (cfg : Config) (tz : ℤ) (a : Analysis)
    (tr : List Addr) :
    (identifyPatterns cfg tz a tr).details.rewardsByAddress =
      a.details.rewardsByAddress := rfl

theorem identifyPatterns_efa (cfg : Config) (tz : ℤ) (a : Analysis)
    (tr : List Addr) :
    (identifyPatterns cfg tz a tr).details.exchangeFlowsByAddress =
      a.details.exchangeFlowsByAddress := rfl

theorem identifyPatterns_tba (cfg : Config) (tz : ℤ) (a : Analysis)
    (tr : List Addr) :
    (identifyPatterns cfg tz a tr).details.transfersByAddress =
      a.details.transfersByAddress := rfl

theorem identifyPatterns_trends (cfg : Config) (tz : ℤ) (a : Analysis)
    (tr : List Addr) : (identifyPatterns cfg tz a tr).trends = a.trends := rfl

theorem identifyPatterns_patterns (cfg : Config) (tz : ℤ) (a : Analysis)
    (tr : List Addr) :
    (identifyPatterns cfg tz a tr).details.suspiciousPatterns =
      coordinatedPatterns cfg tz a.details.exchangeFlowsByAddress ++
      (if 50 < a.summary.sellPressurePercent then
        [{ type := "high_sell_pressure", severity := "medium", hour := 0,
           sellers := [] }] else []) ++
      (if 10 < a.summary.quickSellers then
        [{ type := "rapid_selling", severity := "medium", hour := 0,
           sellers := [] }] else []) := rfl

theorem generateTrends_summary (a : Analysis) :
    (generateTrends a).summary = a.summary := rfl

theorem generateTrends_details (a : Analysis) :
    (generateTrends a).details = a.details := rfl

theorem generateTrends_hourlyRewards (a : Analysis) :
    (generateTrends a).trends.hourlyRewards = a.trends.hourlyRewards := rfl

theorem generateTrends_hourlyExchangeFlows (a : Analysis) :
    (generateTrends a).trends.hourlyExchangeFlows =
      a.trends.hourlyExchangeFlows := rfl

/-! ## Whole-pipeline helper lemmas -/

theorem analyzeFlows_totalRewards (cfg : Config) (tz now : ℤ)
    (rewards : List Reward) (transfers : List Transfer)
    (exchangeFlows : List Flow) (topReceivers : List Addr) :
    (analyzeFlows cfg tz now rewards transfers exchangeFlows
        topReceivers).summary.totalRewards = (rewards.map Reward.amount).sum := by
  unfold analyzeFlows
  dsimp only
  rw [generateTrends_summary, identifyPatterns_summary,
    calculateSellPressure_totalRewards, analyzeExchangeFlows_totalRewards,
    analyzeTransfers_totalRewards, analyzeRewards_totalRewards]
  simp [initialAnalysis]

theorem analyzeFlows_exchangeFlow (cfg : Config) (tz now : ℤ)
    (rewards : List Reward) (transfers : List Transfer)
    (exchangeFlows : List Flow) (topReceivers : List Addr) :
    (analyzeFlows cfg tz now rewards transfers exchangeFlows
        topReceivers).summary.exchangeFlow = depositTotal exchangeFlows := by
  unfold analyzeFlows
  dsimp only
  rw [generateTrends_summary, identifyPatterns_summary,
    calculateSellPressure_exchangeFlow, analyzeExchangeFlows_exchangeFlow,
    analyzeTransfers_exchangeFlow, analyzeRewards_exchangeFlow]
  simp [initialAnalysis]

theorem analyzeFlows_spp (cfg : Config) (tz now : ℤ) (rewards : List Reward)
    (transfers : List Transfer) (exchangeFlows : List Flow)
    (topReceivers : List Addr) :
    (analyzeFlows cfg tz now rewards transfers exchangeFlows
        topReceivers).summary.sellPressurePercent =
      if 0 < (rewards.map Reward.amount).sum then
        depositTotal exchangeFlows / (rewards.map Reward.amount).sum * 100
      else 0 := by
  unfold analyzeFlows
  dsimp only
  rw [generateTrends_summary, identifyPatterns_summary, calculateSellPressure_spp,
    analyzeExchangeFlows_totalRewards, analyzeTransfers_totalRewards,
    analyzeRewards_totalRewards, analyzeExchangeFlows_exchangeFlow,
    analyzeTransfers_exchangeFlow, analyzeRewards_exchangeFlow,
    analyzeExchangeFlows_spp, analyzeTransfers_spp, analyzeRewards_spp]
  simp [initialAnalysis]

/-! ## C4 — the sell-pressure formula -/

/-- C4 (amended): `sellPressurePercent` equals
`100 · exchangeFlow / totalRewards` when `totalRewards > 0` and `0` when
`totalRewards = 0`, where `totalRewards` is the sum of the input reward
amounts and `exchangeFlow` the sum of the input deposit-flow amounts; and for
every input with *strictly positive total rewards* and non-negative flow
amounts, it is non-negative and vanishes exactly when the total deposit flow
is `0`.  (The original non-empty/non-negative reward hypothesis is not
enough: an all-zero reward list keeps `totalRewards = 0` and the guard then
pins the percentage at `0` even when deposits exist.) -/
theorem sellPressure_spec (cfg : Config) (tz now : ℤ) (rewards : List Reward)
    (transfers : List Transfer) (exchangeFlows : List Flow)
    (topReceivers : List Addr) :
    (analyzeFlows cfg tz now rewards transfers exchangeFlows
        topReceivers).summary.totalRewards = (rewards.map Reward.amount).sum ∧
    (analyzeFlows cfg tz now rewards transfers exchangeFlows
        topReceivers).summary.exchangeFlow = depositTotal exchangeFlows ∧
    (0 < (analyzeFlows cfg tz now rewards transfers exchangeFlows
        topReceivers).summary.totalRewards →
      (analyzeFlows cfg tz now rewards transfers exchangeFlows
        topReceivers).summary.sellPressurePercent =
        100 * (analyzeFlows cfg tz now rewards transfers exchangeFlows
          topReceivers).summary.exchangeFlow /
        (analyzeFlows cfg tz now rewards transfers exchangeFlows
          topReceivers).summary.totalRewards) ∧
    ((analyzeFlows cfg tz now rewards transfers exchangeFlows
        topReceivers).summary.totalRewards = 0 →
      (analyzeFlows cfg tz now rewards transfers exchangeFlows
        topReceivers).summary.sellPressurePercent = 0) ∧
    ((∀ f ∈ exchangeFlows, 0 ≤ f.amount) →
      0 < (analyzeFlows cfg tz now rewards transfers exchangeFlows
        topReceivers).summary.totalRewards →
      0 ≤ (analyzeFlows cfg tz now rewards transfers exchangeFlows
        topReceivers).summary.sellPressurePercent ∧
      ((analyzeFlows cfg tz now rewards transfers exchangeFlows
          topReceivers).summary.sellPressurePercent = 0 ↔
        (analyzeFlows cfg tz now rewards transfers exchangeFlows
          topReceivers).summary.exchangeFlow = 0)) := by
  have hTR := analyzeFlows_totalRewards cfg tz now rewards transfers
    exchangeFlows topReceivers
  have hEF := analyzeFlows_exchangeFlow cfg tz now rewards transfers
    exchangeFlows topReceivers
  have hSPP := analyzeFlows_spp cfg tz now rewards transfers exchangeFlows
    topReceivers
  refine ⟨hTR, hEF, ?_, ?_, ?_⟩
  · intro hpos
    rw [hTR] at hpos
    rw [hSPP, if_pos hpos, hTR, hEF]
    ring
  · intro hzero
    rw [hTR] at hzero
    rw [hSPP, hzero]
    simp
  · intro hnn hpos
    rw [hTR] at hpos
    have hdt : 0 ≤ depositTotal exchangeFlows := by
      apply List.sum_nonneg
      intro x hx
      obtain ⟨f, hf, rfl⟩ := List.mem_map.mp hx
      exact hnn f (List.mem_filter.mp hf).1
    constructor
    · rw [hSPP, if_pos hpos]
      have := le_of_lt hpos
      positivity
    · rw [hSPP, if_pos hpos, hEF]
      constructor
      · intro h0
        rcases mul_eq_zero.mp h0 with h | h
        · exact (div_eq_zero_iff.mp h).resolve_right (ne_of_gt hpos)
        · norm_num at h
      · intro h0
        rw [h0]
        simp

/-- C4 (counterexample): a non-empty reward list with non-negative amounts —
a single reward of amount 0 — yields `sellPressurePercent = 0` while the total
exchange deposit flow is `5 ≠ 0`, refuting "equals 0 exactly when the total
exchange deposit flow is 0" as stated. -/
theorem sellPressure_zero_rewards_counterexample :
    (analyzeFlows Config.default 0 0
        [{ address := "a", amount := 0, timestamp := 0 }] []
        [{ fromAddr := "b", toAddr := "EX", amount := 5, timestamp := 10,
           type := FlowType.deposit, exchange := { id := "e", name := "E" },
           exchangeAddress := "EX" }] []).summary.sellPressurePercent = 0 ∧
    (analyzeFlows Config.default 0 0
        [{ address := "a", amount := 0, timestamp := 0 }] []
        [{ fromAddr := "b", toAddr := "EX", amount := 5, timestamp := 10,
           type := FlowType.deposit, exchange := { id := "e", name := "E" },
           exchangeAddress := "EX" }] []).summary.exchangeFlow = 5 ∧
    (5 : ℚ) ≠ 0 ∧
    ([{ address := "a", amount := 0, timestamp := 0 }] : List Reward) ≠ [] ∧
    (∀ r ∈ ([{ address := "a", amount := 0, timestamp := 0 }] : List Reward),
      0 ≤ r.amount) := by
  refine ⟨?_, ?_, by norm_num, by simp, by simp⟩
  · rw [analyzeFlows_spp]
    simp
  · rw [analyzeFlows_exchangeFlow]
    simp [depositTotal]

/-- Concrete instance of `sellPressure_spec` (the spec's own scenario: rewards
150, deposits 100): every hypothesis of the theorem is discharged at this
input. -/
theorem sellPressure_spec_witness :
    (analyzeFlows Config.default 0 86400
        [{ address := "A", amount := 100, timestamp := 1000 },
         { address := "B", amount := 50, timestamp := 1000 }] []
        [{ fromAddr := "A", toAddr := "EX", amount := 100, timestamp := 2800,
           type := FlowType.deposit, exchange := { id := "e", name := "E" },
           exchangeAddress := "EX" }] []).summary.sellPressurePercent =
      100 * (analyzeFlows Config.default 0 86400
        [{ address := "A", amount := 100, timestamp := 1000 },
         { address := "B", amount := 50, timestamp := 1000 }] []
        [{ fromAddr := "A", toAddr := "EX", amount := 100, timestamp := 2800,
           type := FlowType.deposit, exchange := { id := "e", name := "E" },
           exchangeAddress := "EX" }] []).summary.exchangeFlow /
      (analyzeFlows Config.default 0 86400
        [{ address := "A", amount := 100, timestamp := 1000 },
         { address := "B", amount := 50, timestamp := 1000 }] []
        [{ fromAddr := "A", toAddr := "EX", amount := 100, timestamp := 2800,
           type := FlowType.deposit, exchange := { id := "e", name := "E" },
           exchangeAddress := "EX" }] []).summary.totalRewards ∧
    0 ≤ (analyzeFlows Config.default 0 86400
        [{ address := "A", amount := 100, timestamp := 1000 },
         { address := "B", amount := 50, timestamp := 1000 }] []
        [{ fromAddr := "A", toAddr := "EX", amount := 100, timestamp := 2800,
           type := FlowType.deposit, exchange := { id := "e", name := "E" },
           exchangeAddress := "EX" }] []).summary.sellPressurePercent :=
  ⟨(sellPressure_spec Config.default 0 86400
      [{ address := "A", amount := 100, timestamp := 1000 },
       { address := "B", amount := 50, timestamp := 1000 }] []
      [{ fromAddr := "A", toAddr := "EX", amount := 100, timestamp := 2800,
         type := FlowType.deposit, exchange := { id := "e", name := "E" },
         exchangeAddress := "EX" }] []).2.2.1
      (by rw [analyzeFlows_totalRewards]; norm_num),
   ((sellPressure_spec Config.default 0 86400
      [{ address := "A", amount := 100, timestamp := 1000 },
       { address := "B", amount := 50, timestamp := 1000 }] []
      [{ fromAddr := "A", toAddr := "EX", amount := 100, timestamp := 2800,
         type := FlowType.deposit, exchange := { id := "e", name := "E" },
         exchangeAddress := "EX" }] []).2.2.2.2
      (by intro f hf; simp only [List.mem_singleton] at hf; subst hf; norm_num)
      (by rw [analyzeFlows_totalRewards]; norm_num)).1⟩

/-! ## Quick-sell lookup against the built reward map -/

/-- After the reward pass (started from the empty map), the quick-sell lookup
for a flow is exactly: the last input-order reward of the flow's sender,
whatever its timestamp. -/
theorem timeDiffOf_initial (tz now : ℤ) (rewards : List Reward) (f : Flow) :
    timeDiffOf (analyzeRewards tz rewards
        (initialAnalysis now)).details.rewardsByAddress f =
      (lastRewardFor rewards f.fromAddr).map
        (fun r => f.timestamp - r.timestamp) := by
  unfold timeDiffOf
  rw [analyzeRewards_mapGet]
  have hinit : mapGet (initialAnalysis now).details.rewardsByAddress f.fromAddr
      = none := rfl
  rw [hinit, extendAgg_none]
  cases hfe : rewards.filter (fun r => r.address == f.fromAddr) with
  | nil => simp [lastRewardFor, hfe]
  | cons r rs =>
      simp only [lastRewardFor, hfe]
      cases hgl : (r :: rs).getLast? <;> simp [hgl]

/-- Pointwise agreement of the analyzer's quick-sell test with the
input-level reference test. -/
theorem quickTestOn_initial (cfg : Config) (tz now : ℤ) (rewards : List Reward)
    (f : Flow) :
    quickTestOn cfg (analyzeRewards tz rewards
        (initialAnalysis now)).details.rewardsByAddress f =
      isQuickFlow cfg rewards f := by
  unfold quickTestOn isQuickFlow
  rw [timeDiffOf_initial]
  cases hlr : lastRewardFor rewards f.fromAddr <;> simp [hlr]

theorem analyzeFlows_quickSellers (cfg : Config) (tz now : ℤ)
    (rewards : List Reward) (transfers : List Transfer)
    (exchangeFlows : List Flow) (topReceivers : List Addr) :
    (analyzeFlows cfg tz now rewards transfers exchangeFlows
        topReceivers).summary.quickSellers =
      exchangeFlows.countP (isQuickFlow cfg rewards) := by
  unfold analyzeFlows
  dsimp only
  rw [generateTrends_summary, identifyPatterns_summary,
    calculateSellPressure_quickSellers, analyzeExchangeFlows_quickSellers,
    analyzeTransfers_quickSellers, analyzeRewards_quickSellers,
    analyzeTransfers_rba]
  have hfn : quickTestOn cfg (analyzeRewards tz rewards
      (initialAnalysis now)).details.rewardsByAddress = isQuickFlow cfg rewards :=
    funext (quickTestOn_initial cfg tz now rewards)
  rw [hfn]
  simp [initialAnalysis]

theorem analyzeFlows_avg (cfg : Config) (tz now : ℤ) (rewards : List Reward)
    (transfers : List Transfer) (exchangeFlows : List Flow)
    (topReceivers : List Addr) :
    (analyzeFlows cfg tz now rewards transfers exchangeFlows
        topReceivers).summary.averageTimeToExchange =
      if 0 < (timeDiffsOf rewards exchangeFlows).length then
        (((timeDiffsOf rewards exchangeFlows).map (fun d => (d : ℚ))).sum /
          ((timeDiffsOf rewards exchangeFlows).length : ℚ)) / 3600
      else 0 := by
  unfold analyzeFlows
  dsimp only
  rw [generateTrends_summary, identifyPatterns_summary,
    calculateSellPressure_avg, analyzeExchangeFlows_avg, analyzeTransfers_rba]
  have htd : tdListOn (analyzeRewards tz rewards
      (initialAnalysis now)).details.rewardsByAddress exchangeFlows =
      timeDiffsOf rewards exchangeFlows := by
    unfold tdListOn timeDiffsOf
    apply List.filterMap_congr
    intro f _
    rw [timeDiffOf_initial]
  rw [htd, analyzeTransfers_avg, analyzeRewards_avg]
  rfl

/-! ## C2 — the quick-seller counter counts qualifying flows, not addresses -/

/-- C2 (amended): `summary.quickSellers` is incremented once per *qualifying
deposit flow* — a deposit whose sender has at least one reward in the input
and whose time difference to the sender's last input-order reward is below the
rapid-sell threshold — so it equals the count of such flows and is bounded by
the number of deposit flows, not by the number of distinct depositing
addresses. -/
theorem quickSellers_per_flow (cfg : Config) (tz now : ℤ)
    (rewards : List Reward) (transfers : List Transfer)
    (exchangeFlows : List Flow) (topReceivers : List Addr) :
    (analyzeFlows cfg tz now rewards transfers exchangeFlows
        topReceivers).summary.quickSellers =
      exchangeFlows.countP (isQuickFlow cfg rewards) ∧
    (analyzeFlows cfg tz now rewards transfers exchangeFlows
        topReceivers).summary.quickSellers ≤
      (exchangeFlows.filter (fun f => f.type == FlowType.deposit)).length := by
  have h := analyzeFlows_quickSellers cfg tz now rewards transfers
    exchangeFlows topReceivers
  refine ⟨h, ?_⟩
  rw [h]
  have hmono : exchangeFlows.countP (isQuickFlow cfg rewards) ≤
      exchangeFlows.countP (fun f => f.type == FlowType.deposit) := by
    apply List.countP_mono_left
    intro f _ hq
    unfold isQuickFlow at hq
    exact (Bool.and_eq_true_iff.mp hq).1
  calc exchangeFlows.countP (isQuickFlow cfg rewards)
      ≤ exchangeFlows.countP (fun f => f.type == FlowType.deposit) := hmono
    _ = (exchangeFlows.filter (fun f => f.type == FlowType.deposit)).length :=
        (List.countP_eq_length_filter _ _).symm ▸ rfl

/-- C2 (counterexample): one address with one reward and two rapid deposit
flows is counted twice — the quick-seller counter exceeds the number of
distinct addresses with a deposit flow. -/
theorem quickSellers_exceed_addresses_counterexample :
    (analyzeFlows Config.default 0 0
        [{ address := "a", amount := 1, timestamp := 0 }] []
        [{ fromAddr := "a", toAddr := "EX", amount := 1, timestamp := 10,
           type := FlowType.deposit, exchange := { id := "e", name := "E" },
           exchangeAddress := "EX" },
         { fromAddr := "a", toAddr := "EX", amount := 1, timestamp := 20,
           type := FlowType.deposit, exchange := { id := "e", name := "E" },
           exchangeAddress := "EX" }] []).summary.quickSellers = 2 ∧
    ((([{ fromAddr := "a", toAddr := "EX", amount := 1, timestamp := 10,
          type := FlowType.deposit, exchange := { id := "e", name := "E" },
          exchangeAddress := "EX" },
        { fromAddr := "a", toAddr := "EX", amount := 1, timestamp := 20,
          type := FlowType.deposit, exchange := { id := "e", name := "E" },
          exchangeAddress := "EX" }] : List Flow).filter
        (fun f => f.type == FlowType.deposit)).map Flow.fromAddr).toFinset.card
      = 1 := by
  constructor
  · rw [analyzeFlows_quickSellers]
    decide
  · decide

/-! ## C3 — the matched reward is the last input-order reward -/

/-- C3 (amended): the quick-sell/time-to-exchange lookup uses the sender's
*last reward in input order* (`lastRewardFor`), with no requirement that its
timestamp precede the flow's, so a recorded time difference can be zero or
negative; a deposit from an address with no reward still adds its amount to
`summary.exchangeFlow` but contributes nothing to the time-to-exchange list;
the reported average is the mean of the recorded differences in hours. -/
theorem timeToExchange_spec (cfg : Config) (tz now : ℤ)
    (rewards : List Reward) (transfers : List Transfer)
    (exchangeFlows : List Flow) (topReceivers : List Addr) :
    (analyzeFlows cfg tz now rewards transfers exchangeFlows
        topReceivers).summary.averageTimeToExchange =
      (if 0 < (timeDiffsOf rewards exchangeFlows).length then
        (((timeDiffsOf rewards exchangeFlows).map (fun d => (d : ℚ))).sum /
          ((timeDiffsOf rewards exchangeFlows).length : ℚ)) / 3600
      else 0) ∧
    (analyzeFlows cfg tz now rewards transfers exchangeFlows
        topReceivers).summary.exchangeFlow = depositTotal exchangeFlows :=
  ⟨analyzeFlows_avg cfg tz now rewards transfers exchangeFlows topReceivers,
   analyzeFlows_exchangeFlow cfg tz now rewards transfers exchangeFlows
     topReceivers⟩

/-- C3 (counterexample): an address whose only reward comes *after* its
deposit flow (timestamp 100 vs 50) is still matched — the recorded time
difference is −50, the address is flagged a quick seller, and the reported
average time to exchange is negative — refuting "most recent reward strictly
prior to the flow" and "every recorded timeDiff is positive". -/
theorem last_reward_not_prior_counterexample :
    (analyzeFlows Config.default 0 0
        [{ address := "a", amount := 1, timestamp := 100 }] []
        [{ fromAddr := "a", toAddr := "EX", amount := 1, timestamp := 50,
           type := FlowType.deposit, exchange := { id := "e", name := "E" },
           exchangeAddress := "EX" }] []).summary.quickSellers = 1 ∧
    (analyzeFlows Config.default 0 0
        [{ address := "a", amount := 1, timestamp := 100 }] []
        [{ fromAddr := "a", toAddr := "EX", amount := 1, timestamp := 50,
           type := FlowType.deposit, exchange := { id := "e", name := "E" },
           exchangeAddress := "EX" }] []).summary.averageTimeToExchange < 0 := by
  constructor
  · rw [analyzeFlows_quickSellers]
    decide
  · rw [analyzeFlows_avg]
    have htd : timeDiffsOf [{ address := "a", amount := 1, timestamp := 100 }]
        [{ fromAddr := "a", toAddr := "EX", amount := 1, timestamp := 50,
           type := FlowType.deposit, exchange := { id := "e", name := "E" },
           exchangeAddress := "EX" }] = [-50] := by decide
    rw [htd]
    norm_num

/-! ## C5 — holders partition the reward-address set -/

/-- A property preserved by every step is preserved by the fold. -/
theorem foldl_pres {α β : Type} (f : β → α → β) (P : β → Prop)
    (h : ∀ b x, P b → P (f b x)) :
    ∀ (l : List α) (b : β), P b → P (l.foldl f b) := by
  intro l
  induction l with
  | nil => intro b hb; exact hb
  | cons x xs ih => intro b hb; exact ih (f b x) (h b x hb)

/-- `mapSet` keeps the key list duplicate-free. -/
theorem mapSet_keys_nodup {κ ν : Type} [DecidableEq κ] (m : List (κ × ν))
    (k : κ) (v : ν) (h : (m.map Prod.fst).Nodup) :
    ((mapSet m k v).map Prod.fst).Nodup := by
  rw [mapSet_keys]
  by_cases hs : (mapGet m k).isSome
  · rw [if_pos hs]; exact h
  · rw [if_neg hs]
    have hnone : mapGet m k = none := Option.not_isSome_iff_eq_none.mp hs
    have hnotmem : k ∉ m.map Prod.fst := (mapGet_eq_none_iff m k).mp hnone
    simp [List.nodup_append, h, hnotmem]

/-- The reward pass keeps the reward map's keys duplicate-free. -/
theorem analyzeRewards_keys_nodup (tz : ℤ) (rewards : List Reward)
    (a : Analysis) (h : (a.details.rewardsByAddress.map Prod.fst).Nodup) :
    ((analyzeRewards tz rewards a).details.rewardsByAddress.map Prod.fst).Nodup := by
  refine foldl_pres (analyzeRewardsStep tz)
    (fun x => (x.details.rewardsByAddress.map Prod.fst).Nodup) ?_ rewards a h
  intro b x hb
  exact mapSet_keys_nodup _ _ _ hb

/-- Presence in the reward map built from the empty one is exactly having a
reward in the input. -/
theorem analyzeRewards_mapGet_none_iff (tz now : ℤ) (rewards : List Reward)
    (addr : Addr) :
    (mapGet (analyzeRewards tz rewards
        (initialAnalysis now)).details.rewardsByAddress addr = none) ↔
      addr ∉ rewards.map Reward.address := by
  have hinit : mapGet (initialAnalysis now).details.rewardsByAddress addr
      = none := rfl
  rw [analyzeRewards_mapGet, hinit, extendAgg_none]
  by_cases hfe : rewards.filter (fun r => r.address == addr) = []
  · rw [if_pos (by simp [hfe])]
    have hnm : addr ∉ rewards.map Reward.address := by
      rw [List.filter_eq_nil] at hfe
      intro hmem
      obtain ⟨r, hr, hra⟩ := List.mem_map.mp hmem
      exact hfe r hr (by simp [hra])
    simp [hnm]
  · rw [if_neg (by simpa using hfe)]
    have hmem : addr ∈ rewards.map Reward.address := by
      obtain ⟨r, hrmem⟩ := List.exists_mem_of_ne_nil _ hfe
      have hrf := List.mem_filter.mp hrmem
      exact List.mem_map.mpr ⟨r, hrf.1, by simpa using hrf.2⟩
    simp [hmem]

/-- Having no deposit flow from `addr` is exactly being absent from the
deposit-sender list. -/
theorem deposit_filter_eq_nil_iff (exchangeFlows : List Flow) (addr : Addr) :
    (exchangeFlows.filter (fun f => f.type == FlowType.deposit &&
        f.fromAddr == addr) = []) ↔
      addr ∉ (exchangeFlows.filter
        (fun f => f.type == FlowType.deposit)).map Flow.fromAddr := by
  rw [List.filter_eq_nil]
  simp only [List.mem_map, List.mem_filter, not_exists, Bool.and_eq_true,
    beq_iff_eq, not_and]
  aesop

/-- Presence in the final exchange-flow map is exactly having a deposit flow
in the input. -/
theorem analyzeFlows_efa_none_iff (cfg : Config) (tz now : ℤ)
    (rewards : List Reward) (transfers : List Transfer)
    (exchangeFlows : List Flow) (topReceivers : List Addr) (addr : Addr) :
    (mapGet (analyzeFlows cfg tz now rewards transfers exchangeFlows
        topReceivers).details.exchangeFlowsByAddress addr = none) ↔
      exchangeFlows.filter (fun f => f.type == FlowType.deposit &&
        f.fromAddr == addr) = [] := by
  unfold analyzeFlows
  dsimp only
  rw [generateTrends_details, identifyPatterns_efa, calculateSellPressure_efa,
    analyzeExchangeFlows_details]
  rw [(aefFold_mapGet cfg tz exchangeFlows
    (analyzeTransfers transfers (analyzeRewards tz rewards
      (initialAnalysis now)), []) addr).2.2]
  have hempty : mapGet (analyzeTransfers transfers (analyzeRewards tz rewards
      (initialAnalysis now))).details.exchangeFlowsByAddress addr = none := by
    rw [analyzeTransfers_efa, analyzeRewards_efa]
    rfl
  simp [hempty]

/-- Presence in the exchange-flow map after the third pass. -/
theorem a3_efa_none_iff (cfg : Config) (tz now : ℤ) (rewards : List Reward)
    (transfers : List Transfer) (exchangeFlows : List Flow) (addr : Addr) :
    (mapGet (analyzeExchangeFlows cfg tz exchangeFlows
        (analyzeTransfers transfers (analyzeRewards tz rewards
          (initialAnalysis now)))).details.exchangeFlowsByAddress addr = none) ↔
      exchangeFlows.filter (fun f => f.type == FlowType.deposit &&
        f.fromAddr == addr) = [] := by
  rw [analyzeExchangeFlows_details]
  rw [(aefFold_mapGet cfg tz exchangeFlows
    (analyzeTransfers transfers (analyzeRewards tz rewards
      (initialAnalysis now)), []) addr).2.2]
  have hempty : mapGet (analyzeTransfers transfers (analyzeRewards tz rewards
      (initialAnalysis now))).details.exchangeFlowsByAddress addr = none := by
    rw [analyzeTransfers_efa, analyzeRewards_efa]
    rfl
  simp [hempty]

/-- The holder count, written over the reward-map keys and the third-pass
exchange-flow map. -/
theorem analyzeFlows_holders_countP (cfg : Config) (tz now : ℤ)
    (rewards : List Reward) (transfers : List Transfer)
    (exchangeFlows : List Flow) (topReceivers : List Addr) :
    (analyzeFlows cfg tz now rewards transfers exchangeFlows
        topReceivers).summary.holders =
      ((analyzeRewards tz rewards
          (initialAnalysis now)).details.rewardsByAddress.map Prod.fst).countP
        (fun addr => (mapGet (analyzeExchangeFlows cfg tz exchangeFlows
          (analyzeTransfers transfers (analyzeRewards tz rewards
            (initialAnalysis now)))).details.exchangeFlowsByAddress addr).isNone) := by
  unfold analyzeFlows
  dsimp only
  rw [generateTrends_summary, identifyPatterns_summary,
    calculateSellPressure_holders, analyzeExchangeFlows_holders,
    analyzeTransfers_holders, analyzeRewards_holders]
  have hrba : (analyzeExchangeFlows cfg tz exchangeFlows
      (analyzeTransfers transfers (analyzeRewards tz rewards
        (initialAnalysis now)))).details.rewardsByAddress =
      (analyzeRewards tz rewards
        (initialAnalysis now)).details.rewardsByAddress := by
    rw [analyzeExchangeFlows_details, aefFold_rba, analyzeTransfers_rba]
  rw [hrba]
  simp [initialAnalysis]

/-- C5: every reward address falls into exactly one of the two classes — it is
counted by `summary.holders` exactly when it has no deposit exchange flow —
so `holders` is the number of distinct reward addresses absent from the
deposit-sender set, and together with the reward addresses that do have a
deposit flow they partition the distinct reward-address set. -/
theorem holders_partition (cfg : Config) (tz now : ℤ) (rewards : List Reward)
    (transfers : List Transfer) (exchangeFlows : List Flow)
    (topReceivers : List Addr) :
    (analyzeFlows cfg tz now rewards transfers exchangeFlows
        topReceivers).summary.holders =
      ((rewards.map Reward.address).toFinset.filter
        (fun a => a ∉ ((exchangeFlows.filter
          (fun f => f.type == FlowType.deposit)).map Flow.fromAddr).toFinset)).card ∧
    (analyzeFlows cfg tz now rewards transfers exchangeFlows
        topReceivers).summary.holders +
      ((rewards.map Reward.address).toFinset.filter
        (fun a => a ∈ ((exchangeFlows.filter
          (fun f => f.type == FlowType.deposit)).map Flow.fromAddr).toFinset)).card =
      (rewards.map Reward.address).toFinset.card := by
  have hH := analyzeFlows_holders_countP cfg tz now rewards transfers
    exchangeFlows topReceivers
  have hkeysN : ((analyzeRewards tz rewards
      (initialAnalysis now)).details.rewardsByAddress.map Prod.fst).Nodup :=
    analyzeRewards_keys_nodup tz rewards _ List.nodup_nil
  have hkeysMem : ∀ a, a ∈ (analyzeRewards tz rewards
      (initialAnalysis now)).details.rewardsByAddress.map Prod.fst ↔
      a ∈ rewards.map Reward.address := by
    intro a
    rw [← not_iff_not, ← mapGet_eq_none_iff]
    exact analyzeRewards_mapGet_none_iff tz now rewards a
  have hp : ∀ a, ((mapGet (analyzeExchangeFlows cfg tz exchangeFlows
      (analyzeTransfers transfers (analyzeRewards tz rewards
        (initialAnalysis now)))).details.exchangeFlowsByAddress a).isNone = true) ↔
      a ∉ ((exchangeFlows.filter
        (fun f => f.type == FlowType.deposit)).map Flow.fromAddr) := by
    intro a
    rw [Option.isNone_iff_eq_none,
      a3_efa_none_iff cfg tz now rewards transfers exchangeFlows a,
      deposit_filter_eq_nil_iff]
  rw [hH, List.countP_eq_length_filter]
  have hfilterN : (((analyzeRewards tz rewards
      (initialAnalysis now)).details.rewardsByAddress.map Prod.fst).filter
      (fun addr => (mapGet (analyzeExchangeFlows cfg tz exchangeFlows
        (analyzeTransfers transfers (analyzeRewards tz rewards
          (initialAnalysis now)))).details.exchangeFlowsByAddress
            addr).isNone)).Nodup := hkeysN.filter _
  rw [← List.toFinset_card_of_nodup hfilterN, List.toFinset_filter]
  have hfincongr : (((analyzeRewards tz rewards
      (initialAnalysis now)).details.rewardsByAddress.map Prod.fst).toFinset.filter
      (fun a => (mapGet (analyzeExchangeFlows cfg tz exchangeFlows
        (analyzeTransfers transfers (analyzeRewards tz rewards
          (initialAnalysis now)))).details.exchangeFlowsByAddress a).isNone)) =
      (rewards.map Reward.address).toFinset.filter
        (fun a => a ∉ ((exchangeFlows.filter
          (fun f => f.type == FlowType.deposit)).map Flow.fromAddr).toFinset) := by
    ext a
    rw [Finset.mem_filter, Finset.mem_filter, List.mem_toFinset,
      List.mem_toFinset, hkeysMem a]
    constructor
    · rintro ⟨ha, hpa⟩
      refine ⟨ha, ?_⟩
      rw [List.mem_toFinset]
      exact (hp a).mp hpa
    · rintro ⟨ha, hpa⟩
      refine ⟨ha, (hp a).mpr ?_⟩
      rw [List.mem_toFinset] at hpa
      exact hpa
  rw [hfincongr]
  refine ⟨rfl, ?_⟩
  have hpart := Finset.filter_card_add_filter_neg_card_eq_card
    (s := (rewards.map Reward.address).toFinset)
    (p := fun a => a ∈ ((exchangeFlows.filter
      (fun f => f.type == FlowType.deposit)).map Flow.fromAddr).toFinset)
  omega

/-! ## C7 — hour buckets -/

/-- Hour-bucket accumulation of the reward pass. -/
theorem analyzeRewards_hourly (tz : ℤ) :
    ∀ (rewards : List Reward) (a : Analysis) (h : ℤ),
    (mapGet (analyzeRewards tz rewards a).trends.hourlyRewards h).getD 0 =
      (mapGet a.trends.hourlyRewards h).getD 0 +
        ((rewards.filter (fun r => getHoursLocal tz r.timestamp == h)).map
          Reward.amount).sum := by
  intro rewards
  induction rewards with
  | nil => intro a h; simp [analyzeRewards]
  | cons r rs ih =>
      intro a h
      have hrec : analyzeRewards tz (r :: rs) a =
          analyzeRewards tz rs (analyzeRewardsStep tz a r) := rfl
      rw [hrec, ih]
      by_cases hh : getHoursLocal tz r.timestamp = h
      · have hget : (mapGet (analyzeRewardsStep tz a r).trends.hourlyRewards
            h).getD 0 = (mapGet a.trends.hourlyRewards h).getD 0 + r.amount := by
          simp only [analyzeRewardsStep]
          rw [← hh, mapGet_mapSet_self]
          simp
        rw [hget]
        simp [List.filter_cons, hh, add_assoc]
      · have hget : (mapGet (analyzeRewardsStep tz a r).trends.hourlyRewards
            h).getD 0 = (mapGet a.trends.hourlyRewards h).getD 0 := by
          simp only [analyzeRewardsStep]
          rw [mapGet_mapSet_ne _ _ _ _ hh]
        rw [hget]
        simp [List.filter_cons, hh]

/-- Hour-bucket accumulation of one exchange-flow step. -/
theorem aefStep_hourly (cfg : Config) (tz : ℤ) (st : Analysis × List ℤ)
    (f : Flow) (h : ℤ) :
    (mapGet (analyzeExchangeFlowsStep cfg tz st f).1.trends.hourlyExchangeFlows
        h).getD 0 =
      (mapGet st.1.trends.hourlyExchangeFlows h).getD 0 +
        (if f.type == FlowType.deposit && getHoursLocal tz f.timestamp == h then
          f.amount else 0) := by
  by_cases hd : f.type = FlowType.deposit
  · have hup : (analyzeExchangeFlowsStep cfg tz st f).1.trends.hourlyExchangeFlows =
        mapSet st.1.trends.hourlyExchangeFlows (getHoursLocal tz f.timestamp)
          (((mapGet st.1.trends.hourlyExchangeFlows
            (getHoursLocal tz f.timestamp)).getD 0) + f.amount) := by
      cases htd : timeDiffOf st.1.details.rewardsByAddress f with
      | none => simp [analyzeExchangeFlowsStep, hd, htd]
      | some td =>
          by_cases hq : td < cfg.rapidSellThreshold <;>
            simp [analyzeExchangeFlowsStep, hd, htd, hq]
    rw [hup]
    by_cases hh : getHoursLocal tz f.timestamp = h
    · rw [← hh, mapGet_mapSet_self]
      simp [hd, hh]
    · rw [mapGet_mapSet_ne _ _ _ _ hh]
      simp [hd, hh]
  · have hup : (analyzeExchangeFlowsStep cfg tz st f).1.trends.hourlyExchangeFlows =
        st.1.trends.hourlyExchangeFlows := by
      simp [analyzeExchangeFlowsStep, hd]
    rw [hup]
    simp [hd]

/-- Hour-bucket accumulation of the exchange-flow pass. -/
theorem aefFold_hourly (cfg : Config) (tz : ℤ) :
    ∀ (flows : List Flow) (st : Analysis × List ℤ) (h : ℤ),
    (mapGet (flows.foldl (analyzeExchangeFlowsStep cfg tz)
        st).1.trends.hourlyExchangeFlows h).getD 0 =
      (mapGet st.1.trends.hourlyExchangeFlows h).getD 0 +
        ((flows.filter (fun f => f.type == FlowType.deposit &&
          getHoursLocal tz f.timestamp == h)).map Flow.amount).sum := by
  intro flows
  induction flows with
  | nil => intro st h; simp
  | cons f fs ih =>
      intro st h
      rw [List.foldl_cons, ih, aefStep_hourly]
      by_cases hc : (f.type == FlowType.deposit &&
          getHoursLocal tz f.timestamp == h) = true
      · simp [List.filter_cons, hc, add_assoc]
      · simp [List.filter_cons, hc]

theorem analyzeFlows_hourlyRewards (cfg : Config) (tz now : ℤ)
    (rewards : List Reward) (transfers : List Transfer)
    (exchangeFlows : List Flow) (topReceivers : List Addr) (h : ℤ) :
    (mapGet (analyzeFlows cfg tz now rewards transfers exchangeFlows
        topReceivers).trends.hourlyRewards h).getD 0 =
      ((rewards.filter (fun r => getHoursLocal tz r.timestamp == h)).map
        Reward.amount).sum := by
  unfold analyzeFlows
  dsimp only
  rw [generateTrends_hourlyRewards]
  have hip : ∀ (a : Analysis) (tr : List Addr),
      (identifyPatterns cfg tz a tr).trends.hourlyRewards =
        a.trends.hourlyRewards := fun a tr => rfl
  rw [hip]
  have hcsp : ∀ a : Analysis, (calculateSellPressure a).trends.hourlyRewards =
      a.trends.hourlyRewards := fun a => rfl
  rw [hcsp]
  have haef : (analyzeExchangeFlows cfg tz exchangeFlows
      (analyzeTransfers transfers (analyzeRewards tz rewards
        (initialAnalysis now)))).trends.hourlyRewards =
      (analyzeRewards tz rewards (initialAnalysis now)).trends.hourlyRewards := by
    rw [analyzeExchangeFlows_trends, aefFold_hourlyRewards]
    have := analyzeTransfers_trends transfers (analyzeRewards tz rewards
      (initialAnalysis now))
    rw [this]
  rw [haef, analyzeRewards_hourly]
  simp [initialAnalysis, mapGet_nil]

theorem analyzeFlows_hourlyExchangeFlows (cfg : Config) (tz now : ℤ)
    (rewards : List Reward) (transfers : List Transfer)
    (exchangeFlows : List Flow) (topReceivers : List Addr) (h : ℤ) :
    (mapGet (analyzeFlows cfg tz now rewards transfers exchangeFlows
        topReceivers).trends.hourlyExchangeFlows h).getD 0 =
      ((exchangeFlows.filter (fun f => f.type == FlowType.deposit &&
        getHoursLocal tz f.timestamp == h)).map Flow.amount).sum := by
  unfold analyzeFlows
  dsimp only
  rw [generateTrends_hourlyExchangeFlows]
  have hip : ∀ (a : Analysis) (tr : List Addr),
      (identifyPatterns cfg tz a tr).trends.hourlyExchangeFlows =
        a.trends.hourlyExchangeFlows := fun a tr => rfl
  rw [hip]
  have hcsp : ∀ a : Analysis,
      (calculateSellPressure a).trends.hourlyExchangeFlows =
        a.trends.hourlyExchangeFlows := fun a => rfl
  rw [hcsp, analyzeExchangeFlows_trends, aefFold_hourly]
  have h2 : (mapGet (analyzeTransfers transfers (analyzeRewards tz rewards
      (initialAnalysis now))).trends.hourlyExchangeFlows h).getD 0 = 0 := by
    rw [analyzeTransfers_trends, analyzeRewards_hourlyExchangeFlows]
    rfl
  rw [h2, zero_add]

/-- C7 (amended): each reward and each deposit flow is accumulated into the
hour bucket `getHoursLocal tz ts = ((ts + tz).fdiv 3600).emod 24` — the hour
of day in the *host local timezone* (`Date#getHours`), not a fixed UTC hour;
the bucket agrees with the claimed `floor(ts / 3600) mod 24` UTC formula when
the host offset `tz` is zero. -/
theorem hourly_buckets_local_time (cfg : Config) (tz now : ℤ)
    (rewards : List Reward) (transfers : List Transfer)
    (exchangeFlows : List Flow) (topReceivers : List Addr) (h : ℤ) :
    ((mapGet (analyzeFlows cfg tz now rewards transfers exchangeFlows
        topReceivers).trends.hourlyRewards h).getD 0 =
      ((rewards.filter (fun r => getHoursLocal tz r.timestamp == h)).map
        Reward.amount).sum) ∧
    ((mapGet (analyzeFlows cfg tz now rewards transfers exchangeFlows
        topReceivers).trends.hourlyExchangeFlows h).getD 0 =
      ((exchangeFlows.filter (fun f => f.type == FlowType.deposit &&
        getHoursLocal tz f.timestamp == h)).map Flow.amount).sum) ∧
    (∀ ts : ℤ, getHoursLocal 0 ts = (ts.fdiv 3600).emod 24) :=
  ⟨analyzeFlows_hourlyRewards cfg tz now rewards transfers exchangeFlows
      topReceivers h,
   analyzeFlows_hourlyExchangeFlows cfg tz now rewards transfers exchangeFlows
      topReceivers h,
   fun ts => by simp [getHoursLocal]⟩

/-- C7 (counterexample): with a host timezone one hour east of UTC
(`tz = 3600`), a reward at unix time `0` is accumulated into hour bucket `1`,
while the claimed UTC bucket `floor(0 / 3600) mod 24 = 0` stays empty: the
bucketing is not independent of the host timezone. -/
theorem hourly_bucket_timezone_counterexample :
    (mapGet (analyzeFlows Config.default 3600 0
        [{ address := "a", amount := 1, timestamp := 0 }] [] []
        []).trends.hourlyRewards 1).getD 0 = 1 ∧
    (mapGet (analyzeFlows Config.default 3600 0
        [{ address := "a", amount := 1, timestamp := 0 }] [] []
        []).trends.hourlyRewards (((0 : ℤ).fdiv 3600).emod 24)).getD 0 = 0 ∧
    ((0 : ℤ).fdiv 3600).emod 24 = 0 := by
  refine ⟨?_, ?_, by decide⟩
  · rw [analyzeFlows_hourlyRewards]
    have : ([{ address := "a", amount := 1, timestamp := 0 }] : List Reward).filter
        (fun r => getHoursLocal 3600 r.timestamp == 1) =
        [{ address := "a", amount := 1, timestamp := 0 }] := by decide
    rw [this]
    simp
  · rw [analyzeFlows_hourlyRewards]
    have : ([{ address := "a", amount := 1, timestamp := 0 }] : List Reward).filter
        (fun r => getHoursLocal 3600 r.timestamp == ((0 : ℤ).fdiv 3600).emod 24) =
        [] := by decide
    rw [this]
    simp

/-! ## C9 — per-address deposit total never exceeds outgoing transfer total -/

/-- The final exchange-flow aggregate total of an address is the sum of the
input deposit-flow amounts sent from it. -/
theorem analyzeFlows_efa_total (cfg : Config) (tz now : ℤ)
    (rewards : List Reward) (transfers : List Transfer)
    (exchangeFlows : List Flow) (topReceivers : List Addr) (addr : Addr) :
    ((mapGet (analyzeFlows cfg tz now rewards transfers exchangeFlows
        topReceivers).details.exchangeFlowsByAddress addr).map
      AddrFlows.total).getD 0 =
      ((exchangeFlows.filter (fun f => f.type == FlowType.deposit &&
        f.fromAddr == addr)).map Flow.amount).sum := by
  unfold analyzeFlows
  dsimp only
  rw [generateTrends_details, identifyPatterns_efa, calculateSellPressure_efa,
    analyzeExchangeFlows_details]
  rw [(aefFold_mapGet cfg tz exchangeFlows
    (analyzeTransfers transfers (analyzeRewards tz rewards
      (initialAnalysis now)), []) addr).2.1]
  have hempty : mapGet (analyzeTransfers transfers (analyzeRewards tz rewards
      (initialAnalysis now))).details.exchangeFlowsByAddress addr = none := by
    rw [analyzeTransfers_efa, analyzeRewards_efa]
    rfl
  rw [hempty]
  simp

/-- The final transfer aggregate total of an address is the sum of the input
transfer amounts sent from it. -/
theorem analyzeFlows_tba_total (cfg : Config) (tz now : ℤ)
    (rewards : List Reward) (transfers : List Transfer)
    (exchangeFlows : List Flow) (topReceivers : List Addr) (addr : Addr) :
    ((mapGet (analyzeFlows cfg tz now rewards transfers exchangeFlows
        topReceivers).details.transfersByAddress addr).map
      AddrTransfers.total).getD 0 =
      ((transfers.filter (fun t => t.fromAddr == addr)).map
        Transfer.amount).sum := by
  unfold analyzeFlows
  dsimp only
  rw [generateTrends_details, identifyPatterns_tba, calculateSellPressure_tba,
    analyzeExchangeFlows_details, aefFold_tba, analyzeTransfers_total]
  have hempty : mapGet (analyzeRewards tz rewards
      (initialAnalysis now)).details.transfersByAddress addr = none := by
    rw [analyzeRewards_tba]
    rfl
  rw [hempty]
  simp

/-- The deposit amounts one `detectStep` contributes for a given sender. -/
theorem filter_deposit_detectStep (exch : List (Addr × ExchangeInfo))
    (t : Transfer) (addr : Addr) :
    ((detectStep exch t).filter (fun f => f.type == FlowType.deposit &&
        f.fromAddr == addr)).map Flow.amount =
      (if (t.fromAddr == addr && (getExchangeInfo exch t.toAddr).isSome) = true
        then [t.amount] else []) := by
  unfold detectStep
  cases hto : getExchangeInfo exch t.toAddr with
  | none =>
      cases hfrom : getExchangeInfo exch t.fromAddr with
      | none => simp
      | some e => by_cases haddr : t.fromAddr = addr <;> simp [haddr]
  | some e =>
      cases hfrom : getExchangeInfo exch t.fromAddr with
      | none => by_cases haddr : t.fromAddr = addr <;> simp [haddr]
      | some e2 => by_cases haddr : t.fromAddr = addr <;> simp [haddr]

theorem detect_deposit_amounts (exch : List (Addr × ExchangeInfo)) (addr : Addr) :
    ∀ transfers : List Transfer,
    ((detectExchangeTransfers exch transfers).filter
        (fun f => f.type == FlowType.deposit && f.fromAddr == addr)).map
      Flow.amount =
      ((transfers.filter (fun t => t.fromAddr == addr &&
        (getExchangeInfo exch t.toAddr).isSome)).map Transfer.amount) := by
  intro transfers
  induction transfers with
  | nil => rfl
  | cons t ts ih =>
      have hrec : detectExchangeTransfers exch (t :: ts) =
          detectStep exch t ++ detectExchangeTransfers exch ts := rfl
      rw [hrec, List.filter_append, List.map_append, ih,
        filter_deposit_detectStep]
      by_cases hc : (t.fromAddr == addr &&
          (getExchangeInfo exch t.toAddr).isSome) = true <;>
        simp [List.filter_cons, hc]

/-- Strengthening a filter cannot increase a sum of non-negative amounts. -/
theorem filter_and_sum_le (p q : Transfer → Bool) :
    ∀ ts : List Transfer, (∀ t ∈ ts, 0 ≤ t.amount) →
    ((ts.filter (fun t => p t && q t)).map Transfer.amount).sum ≤
      ((ts.filter p).map Transfer.amount).sum := by
  intro ts
  induction ts with
  | nil => intro _; simp
  | cons t ts ih =>
      intro hnn
      have hts : ∀ x ∈ ts, 0 ≤ x.amount := fun x hx => hnn x (List.mem_cons_of_mem t hx)
      have ht : 0 ≤ t.amount := hnn t (List.mem_cons_self t ts)
      rw [List.filter_cons, List.filter_cons]
      by_cases hq : (p t && q t) = true
      · have hp : p t = true := (Bool.and_eq_true_iff.mp hq).1
        rw [if_pos hq, if_pos hp]
        simp only [List.map_cons, List.sum_cons]
        exact add_le_add_left (ih hts) _
      · rw [if_neg hq]
        by_cases hp : p t = true
        · rw [if_pos hp]
          simp only [List.map_cons, List.sum_cons]
          calc ((ts.filter (fun x => p x && q x)).map Transfer.amount).sum
              ≤ ((ts.filter p).map Transfer.amount).sum := ih hts
            _ ≤ t.amount + ((ts.filter p).map Transfer.amount).sum :=
                le_add_of_nonneg_left ht
        · rw [if_neg hp]
          exact ih hts

/-- C9: when the exchange flows are exactly the detector's classification of
the transfer set and all transfer amounts are non-negative, each address's
accumulated `total` in the exchange-flow map never exceeds its accumulated
outgoing-transfer `total`: its deposit flows are a subset of its outgoing
transfers with unchanged amounts. -/
theorem exchange_total_le_transfer_total (cfg : Config) (tz now : ℤ)
    (exch : List (Addr × ExchangeInfo)) (rewards : List Reward)
    (transfers : List Transfer) (topReceivers : List Addr) (addr : Addr)
    (hnn : ∀ t ∈ transfers, 0 ≤ t.amount) :
    ((mapGet (analyzeFlows cfg tz now rewards transfers
        (detectExchangeTransfers exch transfers)
        topReceivers).details.exchangeFlowsByAddress addr).map
      AddrFlows.total).getD 0 ≤
    ((mapGet (analyzeFlows cfg tz now rewards transfers
        (detectExchangeTransfers exch transfers)
        topReceivers).details.transfersByAddress addr).map
      AddrTransfers.total).getD 0 := by
  rw [analyzeFlows_efa_total, analyzeFlows_tba_total, detect_deposit_amounts]
  exact filter_and_sum_le (fun t => t.fromAddr == addr)
    (fun t => (getExchangeInfo exch t.toAddr).isSome) transfers hnn

/-- Concrete instance of `exchange_total_le_transfer_total`: one exchange
deposit of 5 and one unrelated transfer of 7 from the same address. -/
theorem exchange_total_le_transfer_total_witness :
    ((mapGet (analyzeFlows Config.default 0 0 []
        [{ fromAddr := "a", toAddr := "EX", amount := 5, timestamp := 10 },
         { fromAddr := "a", toAddr := "b", amount := 7, timestamp := 20 }]
        (detectExchangeTransfers [("EX", { id := "e", name := "E" })]
          [{ fromAddr := "a", toAddr := "EX", amount := 5, timestamp := 10 },
           { fromAddr := "a", toAddr := "b", amount := 7, timestamp := 20 }])
        []).details.exchangeFlowsByAddress "a").map AddrFlows.total).getD 0 ≤
    ((mapGet (analyzeFlows Config.default 0 0 []
        [{ fromAddr := "a", toAddr := "EX", amount := 5, timestamp := 10 },
         { fromAddr := "a", toAddr := "b", amount := 7, timestamp := 20 }]
        (detectExchangeTransfers [("EX", { id := "e", name := "E" })]
          [{ fromAddr := "a", toAddr := "EX", amount := 5, timestamp := 10 },
           { fromAddr := "a", toAddr := "b", amount := 7, timestamp := 20 }])
        []).details.transfersByAddress "a").map AddrTransfers.total).getD 0 :=
  exchange_total_le_transfer_total Config.default 0 0
    [("EX", { id := "e", name := "E" })] []
    [{ fromAddr := "a", toAddr := "EX", amount := 5, timestamp := 10 },
     { fromAddr := "a", toAddr := "b", amount := 7, timestamp := 20 }] [] "a"
    (by
      intro t ht
      rcases List.mem_cons.mp ht with rfl | ht2
      · norm_num
      · rcases List.mem_cons.mp ht2 with rfl | ht3
        · norm_num
        · simp at ht3)

/-! ## C6 — coordinated-selling pattern machinery -/

/-- The nested loops of `largeSellersByHour` are the fold of `addLargeSeller`
over the flattened (address, flow) pairs. -/
theorem largeSellers_go (cfg : Config) (tz : ℤ) :
    ∀ (efa : List (Addr × AddrFlows)) (m : List (ℤ × List LargeSeller)),
    efa.foldl (fun m p => p.2.flows.foldl (fun m flow =>
        if cfg.largeFlowThreshold < flow.amount then
          let hour := getHoursLocal tz flow.timestamp
          mapSet m hour (((mapGet m hour).getD []) ++
            [{ address := p.1, amount := flow.amount,
               exchange := flow.exchange.name }])
        else m) m) m =
      (totalFlowPairs efa).foldl (addLargeSeller cfg tz) m := by
  intro efa
  induction efa with
  | nil => intro m; rfl
  | cons p rest ih =>
      intro m
      rw [List.foldl_cons]
      have hTP : totalFlowPairs (p :: rest) =
          p.2.flows.map (fun f => (p.1, f)) ++ totalFlowPairs rest := rfl
      rw [hTP, List.foldl_append, ih]
      congr 1
      rw [List.foldl_map]
      rfl

theorem largeSellersByHour_eq (cfg : Config) (tz : ℤ)
    (efa : List (Addr × AddrFlows)) :
    largeSellersByHour cfg tz efa =
      (totalFlowPairs efa).foldl (addLargeSeller cfg tz) [] :=
  largeSellers_go cfg tz efa []

/-- Bucket sizes of the pair fold count the qualifying pairs. -/
theorem foldPairs_bucketLen (cfg : Config) (tz : ℤ) :
    ∀ (L : List (Addr × Flow)) (m : List (ℤ × List LargeSeller)) (h : ℤ),
    bucketLen (L.foldl (addLargeSeller cfg tz) m) h =
      bucketLen m h + L.countP (fun pr =>
        decide (cfg.largeFlowThreshold < pr.2.amount) &&
        (getHoursLocal tz pr.2.timestamp == h)) := by
  intro L
  induction L with
  | nil => intro m h; simp
  | cons pr ps ih =>
      intro m h
      rw [List.foldl_cons, ih, List.countP_cons]
      by_cases hlarge : cfg.largeFlowThreshold < pr.2.amount
      · by_cases hh : getHoursLocal tz pr.2.timestamp = h
        · have hb : bucketLen (addLargeSeller cfg tz m pr) h = bucketLen m h + 1 := by
            unfold addLargeSeller bucketLen
            rw [if_pos hlarge, ← hh, mapGet_mapSet_self]
            simp
          rw [hb]
          simp [hlarge, hh]
          omega
        · have hb : bucketLen (addLargeSeller cfg tz m pr) h = bucketLen m h := by
            unfold addLargeSeller bucketLen
            rw [if_pos hlarge, mapGet_mapSet_ne _ _ _ _ hh]
          rw [hb]
          simp [hlarge, hh]
      · have hb : bucketLen (addLargeSeller cfg tz m pr) h = bucketLen m h := by
          unfold addLargeSeller bucketLen
          rw [if_neg hlarge]
        rw [hb]
        simp [hlarge]

/-- Updating one address's aggregate with one appended flow adds exactly that
pair to the flattened pair count. -/
theorem totalFlowPairs_mapSet_countP (Q : Addr × Flow → Bool) :
    ∀ (efa : List (Addr × AddrFlows)) (addr : Addr) (v : AddrFlows) (f : Flow),
    v.flows = ((mapGet efa addr).map AddrFlows.flows).getD [] ++ [f] →
    (totalFlowPairs (mapSet efa addr v)).countP Q =
      (totalFlowPairs efa).countP Q + (if Q (addr, f) then 1 else 0) := by
  intro efa
  induction efa with
  | nil =>
      intro addr v f hv
      simp only [mapGet_nil, Option.map_none', Option.getD_none,
        List.nil_append] at hv
      simp [totalFlowPairs, mapSet, hv, List.countP_cons]
  | cons p rest ih =>
      intro addr v f hv
      obtain ⟨k, w⟩ := p
      by_cases hk : k = addr
      · subst hk
        have hms : mapSet ((k, w) :: rest) k v = (k, v) :: rest := by
          simp [mapSet]
        have hv' : v.flows = w.flows ++ [f] := by
          rw [hv, mapGet_cons]
          simp
        rw [hms]
        have h1 : totalFlowPairs ((k, v) :: rest) =
            v.flows.map (fun x => (k, x)) ++ totalFlowPairs rest := rfl
        have h2 : totalFlowPairs ((k, w) :: rest) =
            w.flows.map (fun x => (k, x)) ++ totalFlowPairs rest := rfl
        rw [h1, h2, hv', List.map_append, List.countP_append,
          List.countP_append, List.countP_append]
        by_cases hQ : Q (k, f) = true <;> simp [List.countP_cons, hQ] <;> omega
      · have hms : mapSet ((k, w) :: rest) addr v =
            (k, w) :: mapSet rest addr v := by
          simp [mapSet, hk]
        have hv' : v.flows = ((mapGet rest addr).map AddrFlows.flows).getD []
            ++ [f] := by
          rw [hv, mapGet_cons]
          simp [hk]
        rw [hms]
        have h1 : totalFlowPairs ((k, w) :: mapSet rest addr v) =
            w.flows.map (fun x => (k, x)) ++ totalFlowPairs (mapSet rest addr v) := rfl
        have h2 : totalFlowPairs ((k, w) :: rest) =
            w.flows.map (fun x => (k, x)) ++ totalFlowPairs rest := rfl
        rw [h1, h2, List.countP_append, List.countP_append, ih addr v f hv']
        omega

/-- One exchange-flow step adds at most one pair to the flattened pair count. -/
theorem aefStep_TPcountP (cfg : Config) (tz : ℤ) (st : Analysis × List ℤ)
    (f : Flow) (Q : Addr × Flow → Bool) :
    (totalFlowPairs (analyzeExchangeFlowsStep cfg tz
        st f).1.details.exchangeFlowsByAddress).countP Q =
      (totalFlowPairs st.1.details.exchangeFlowsByAddress).countP Q +
        (if (f.type == FlowType.deposit && Q (f.fromAddr, f)) = true
          then 1 else 0) := by
  rw [aefStep_efa]
  by_cases hd : f.type = FlowType.deposit
  · rw [if_pos (by simp [hd])]
    rw [totalFlowPairs_mapSet_countP Q _ _ _ f
      (by cases hma : mapGet st.1.details.exchangeFlowsByAddress f.fromAddr <;>
        simp [hma])]
    by_cases hQ : Q (f.fromAddr, f) = true <;> simp [hd, hQ]
  · rw [if_neg (by simp [hd])]
    simp [hd]

/-- The whole exchange-flow pass: the flattened pair count grows by the number
of qualifying deposit flows. -/
theorem aefFold_TPcountP (cfg : Config) (tz : ℤ) (Q : Addr × Flow → Bool) :
    ∀ (flows : List Flow) (st : Analysis × List ℤ),
    (totalFlowPairs (flows.foldl (analyzeExchangeFlowsStep cfg tz)
        st).1.details.exchangeFlowsByAddress).countP Q =
      (totalFlowPairs st.1.details.exchangeFlowsByAddress).countP Q +
        flows.countP (fun f => f.type == FlowType.deposit && Q (f.fromAddr, f)) := by
  intro flows
  induction flows with
  | nil => intro st; simp
  | cons f fs ih =>
      intro st
      rw [List.foldl_cons, ih, aefStep_TPcountP, List.countP_cons]
      by_cases hc : (f.type == FlowType.deposit && Q (f.fromAddr, f)) = true <;>
        simp [hc] <;> omega

/-- Bucket sizes of the final grouping equal the per-hour large-deposit
counts of the input flow list. -/
theorem bucketLen_final (cfg : Config) (tz now : ℤ) (rewards : List Reward)
    (transfers : List Transfer) (exchangeFlows : List Flow) (h : ℤ) :
    bucketLen (largeSellersByHour cfg tz (analyzeExchangeFlows cfg tz
        exchangeFlows (analyzeTransfers transfers (analyzeRewards tz rewards
          (initialAnalysis now)))).details.exchangeFlowsByAddress) h =
      largeDepositCount cfg tz exchangeFlows h := by
  rw [analyzeExchangeFlows_details, largeSellersByHour_eq, foldPairs_bucketLen]
  have hTP0 : totalFlowPairs (analyzeTransfers transfers (analyzeRewards tz
      rewards (initialAnalysis now))).details.exchangeFlowsByAddress = [] := by
    rw [analyzeTransfers_efa, analyzeRewards_efa]
    rfl
  rw [aefFold_TPcountP, hTP0]
  have hcong : ∀ f : Flow,
      (f.type == FlowType.deposit &&
        (decide (cfg.largeFlowThreshold < f.amount) &&
          (getHoursLocal tz f.timestamp == h))) =
      (f.type == FlowType.deposit &&
        decide (cfg.largeFlowThreshold < f.amount) &&
        (getHoursLocal tz f.timestamp == h)) := by
    intro f
    rw [Bool.and_assoc]
  have hb0 : bucketLen ([] : List (ℤ × List LargeSeller)) h = 0 := rfl
  rw [hb0]
  simp only [List.countP_nil, zero_add]
  unfold largeDepositCount
  rw [funext hcong]

/-- Counting the subsidiary patterns of a pattern list through `flatMap`. -/
theorem countP_flatMap_sum {α β : Type} (p : β → Bool) :
    ∀ (l : List α) (g : α → List β),
    (l.flatMap g).countP p = (l.map (fun x => (g x).countP p)).sum := by
  intro l
  induction l with
  | nil => intro g; rfl
  | cons x xs ih =>
      intro g
      rw [List.flatMap_cons, List.countP_append, List.map_cons, List.sum_cons,
        ih]

/-- Sum over `range n` of a function vanishing away from `k`. -/
theorem sum_map_range_single (g : ℕ → ℕ) :
    ∀ (n k : ℕ), k < n → (∀ m, m < n → m ≠ k → g m = 0) →
    ((List.range n).map g).sum = g k := by
  intro n
  induction n with
  | zero => intro k hk; omega
  | succ n ih =>
      intro k hk hz
      rw [List.range_succ, List.map_append, List.sum_append]
      by_cases hkn : k = n
      · subst hkn
        have hrest : ((List.range k).map g).sum = 0 := by
          apply List.sum_eq_zero
          intro x hx
          obtain ⟨m, hm, rfl⟩ := List.mem_map.mp hx
          exact hz m (by simp at hm; omega) (by simp at hm; omega)
        rw [hrest]
        simp
      · have hk' : k < n := by omega
        rw [ih k hk' (fun m hm hmk => hz m (by omega) hmk)]
        have hgn : g n = 0 := hz n (by omega) (by omega)
        simp [hgn]

/-- Per-hour count of emitted coordinated-selling patterns: one pattern for a
bucket of size at least 3, none otherwise. -/
theorem coordinatedPatterns_countP (cfg : Config) (tz : ℤ)
    (efa : List (Addr × AddrFlows)) (h0 : ℤ) (h1 : 0 ≤ h0) (h2 : h0 < 24) :
    (coordinatedPatterns cfg tz efa).countP
        (fun p => p.type == "coordinated_selling" && p.hour == h0) =
      if 3 ≤ bucketLen (largeSellersByHour cfg tz efa) h0 then 1 else 0 := by
  obtain ⟨k, hk24, rfl⟩ : ∃ k : ℕ, k < 24 ∧ h0 = (k : ℤ) :=
    ⟨h0.toNat, by omega, by omega⟩
  unfold coordinatedPatterns
  rw [countP_flatMap_sum]
  rw [sum_map_range_single _ 24 k hk24]
  · cases hmg : mapGet (largeSellersByHour cfg tz efa) (k : ℤ) with
    | none =>
        have hb : bucketLen (largeSellersByHour cfg tz efa) (k : ℤ) = 0 := by
          unfold bucketLen
          rw [hmg]
          rfl
        rw [hb]
        simp [hmg]
    | some sellers =>
        have hb : bucketLen (largeSellersByHour cfg tz efa) (k : ℤ) =
            sellers.length := by
          unfold bucketLen
          rw [hmg]
          rfl
        rw [hb]
        by_cases h3 : 3 ≤ sellers.length <;>
          simp [hmg, h3, List.countP_cons]
  · intro m hm hmk
    cases hmg : mapGet (largeSellersByHour cfg tz efa) (m : ℤ) with
    | none => simp [hmg]
    | some sellers =>
        by_cases h3 : 3 ≤ sellers.length <;>
          simp [hmg, h3, List.countP_cons, hmk]

/-- Every emitted coordinated-selling pattern reports its full hour bucket. -/
theorem coordinatedPatterns_mem (cfg : Config) (tz : ℤ)
    (efa : List (Addr × AddrFlows)) (p : Pattern)
    (hp : p ∈ coordinatedPatterns cfg tz efa) :
    p.type = "coordinated_selling" ∧ p.severity = "high" ∧
    p.sellers.length = bucketLen (largeSellersByHour cfg tz efa) p.hour ∧
    3 ≤ p.sellers.length := by
  unfold coordinatedPatterns at hp
  rw [List.mem_flatMap] at hp
  obtain ⟨h, hhr, hpe⟩ := hp
  cases hmg : mapGet (largeSellersByHour cfg tz efa) (h : ℤ) with
  | none => rw [hmg] at hpe; simp at hpe
  | some sellers =>
      rw [hmg] at hpe
      dsimp only at hpe
      by_cases h3 : 3 ≤ sellers.length
      · rw [if_pos h3] at hpe
        rw [List.mem_singleton] at hpe
        subst hpe
        refine ⟨rfl, rfl, ?_, h3⟩
        unfold bucketLen
        simp only [hmg]
        rfl
      · rw [if_neg h3] at hpe
        simp at hpe

/-- The suspicious-pattern list is the coordinated patterns of the built
exchange-flow map followed by patterns of the two other kinds. -/
theorem analyzeFlows_coordinated (cfg : Config) (tz now : ℤ)
    (rewards : List Reward) (transfers : List Transfer)
    (exchangeFlows : List Flow) (topReceivers : List Addr) :
    ∃ extra : List Pattern,
      (analyzeFlows cfg tz now rewards transfers exchangeFlows
          topReceivers).details.suspiciousPatterns =
        coordinatedPatterns cfg tz (analyzeExchangeFlows cfg tz exchangeFlows
          (analyzeTransfers transfers (analyzeRewards tz rewards
            (initialAnalysis now)))).details.exchangeFlowsByAddress ++ extra ∧
      ∀ p ∈ extra, p.type = "high_sell_pressure" ∨ p.type = "rapid_selling" := by
  refine ⟨(if 50 < (calculateSellPressure (analyzeExchangeFlows cfg tz
      exchangeFlows (analyzeTransfers transfers (analyzeRewards tz rewards
        (initialAnalysis now))))).summary.sellPressurePercent then
      [{ type := "high_sell_pressure", severity := "medium", hour := 0,
         sellers := [] }] else []) ++
    (if 10 < (calculateSellPressure (analyzeExchangeFlows cfg tz
      exchangeFlows (analyzeTransfers transfers (analyzeRewards tz rewards
        (initialAnalysis now))))).summary.quickSellers then
      [{ type := "rapid_selling", severity := "medium", hour := 0,
         sellers := [] }] else []), ?_, ?_⟩
  · unfold analyzeFlows
    dsimp only
    rw [generateTrends_details, identifyPatterns_patterns,
      calculateSellPressure_efa, List.append_assoc]
  · intro p hp
    rcases List.mem_append.mp hp with h | h
    · left
      split at h
      · rw [List.mem_singleton] at h
        subst h
        rfl
      · simp at h
    · right
      split at h
      · rw [List.mem_singleton] at h
        subst h
        rfl
      · simp at h

/-- Per-hour coordinated-pattern count of the whole pipeline. -/
theorem analyzeFlows_coordinated_countP (cfg : Config) (tz now : ℤ)
    (rewards : List Reward) (transfers : List Transfer)
    (exchangeFlows : List Flow) (topReceivers : List Addr) (h0 : ℤ)
    (h1 : 0 ≤ h0) (h2 : h0 < 24) :
    ((analyzeFlows cfg tz now rewards transfers exchangeFlows
        topReceivers).details.suspiciousPatterns.countP
      (fun p => p.type == "coordinated_selling" && p.hour == h0)) =
      if 3 ≤ largeDepositCount cfg tz exchangeFlows h0 then 1 else 0 := by
  obtain ⟨extra, hpat, hextra⟩ := analyzeFlows_coordinated cfg tz now rewards
    transfers exchangeFlows topReceivers
  rw [hpat, List.countP_append,
    coordinatedPatterns_countP cfg tz _ h0 h1 h2,
    bucketLen_final cfg tz now rewards transfers exchangeFlows h0]
  have hex : extra.countP
      (fun p => p.type == "coordinated_selling" && p.hour == h0) = 0 := by
    rw [List.countP_eq_zero]
    intro p hp
    rcases hextra p hp with h | h <;>
    · simp only [Bool.and_eq_true, beq_iff_eq, not_and, h]
      intro hcontra
      exact absurd hcontra (by decide)
  rw [hex, Nat.add_zero]

/-- Per-pattern participant counts of the whole pipeline. -/
theorem analyzeFlows_coordinated_mem (cfg : Config) (tz now : ℤ)
    (rewards : List Reward) (transfers : List Transfer)
    (exchangeFlows : List Flow) (topReceivers : List Addr) (p : Pattern)
    (hp : p ∈ (analyzeFlows cfg tz now rewards transfers exchangeFlows
      topReceivers).details.suspiciousPatterns)
    (htype : p.type = "coordinated_selling") :
    p.severity = "high" ∧ 3 ≤ p.sellers.length ∧
    p.sellers.length = largeDepositCount cfg tz exchangeFlows p.hour := by
  obtain ⟨extra, hpat, hextra⟩ := analyzeFlows_coordinated cfg tz now rewards
    transfers exchangeFlows topReceivers
  rw [hpat] at hp
  rcases List.mem_append.mp hp with hc | he
  · have hm := coordinatedPatterns_mem cfg tz _ p hc
    exact ⟨hm.2.1, hm.2.2.2, by
      rw [hm.2.2.1, bucketLen_final cfg tz now rewards transfers exchangeFlows]⟩
  · rcases hextra p he with h | h <;> rw [htype] at h <;>
      exact absurd h (by decide)

/-- C6 (amended): pattern detection emits exactly one "coordinated_selling"
pattern of severity "high" for an hour bucket when at least 3 *deposit-flow
records* in that hour exceed the large-flow threshold — the count is per
qualifying flow, not per distinct address — and none otherwise; the emitted
pattern's participant list has exactly that many entries.  In particular
three distinct addresses each depositing 15,000 (threshold 10,000) in one
hour yield one pattern with participant count 3, but so do three large flows
from a single address. -/
theorem coordinated_pattern_spec (cfg : Config) (tz now : ℤ)
    (rewards : List Reward) (transfers : List Transfer)
    (exchangeFlows : List Flow) (topReceivers : List Addr) (h0 : ℤ)
    (h1 : 0 ≤ h0) (h2 : h0 < 24) :
    ((analyzeFlows cfg tz now rewards transfers exchangeFlows
        topReceivers).details.suspiciousPatterns.countP
      (fun p => p.type == "coordinated_selling" && p.hour == h0)) =
      (if 3 ≤ largeDepositCount cfg tz exchangeFlows h0 then 1 else 0) ∧
    (∀ p ∈ (analyzeFlows cfg tz now rewards transfers exchangeFlows
        topReceivers).details.suspiciousPatterns,
      p.type = "coordinated_selling" →
        p.severity = "high" ∧ 3 ≤ p.sellers.length ∧
        p.sellers.length = largeDepositCount cfg tz exchangeFlows p.hour) :=
  ⟨analyzeFlows_coordinated_countP cfg tz now rewards transfers exchangeFlows
      topReceivers h0 h1 h2,
   fun p hp htype => analyzeFlows_coordinated_mem cfg tz now rewards transfers
      exchangeFlows topReceivers p hp htype⟩

/-- C6 (counterexample): a *single* address with three large deposits in one
hour still triggers exactly one coordinated-selling pattern — the "≥3
distinct addresses" trigger of the claim is wrong, the code counts qualifying
flow records. -/
theorem coordinated_single_address_counterexample :
    ((analyzeFlows Config.default 0 0 [] []
        [{ fromAddr := "a", toAddr := "EX", amount := 15000, timestamp := 0,
           type := FlowType.deposit, exchange := { id := "e", name := "E" },
           exchangeAddress := "EX" },
         { fromAddr := "a", toAddr := "EX", amount := 15000, timestamp := 60,
           type := FlowType.deposit, exchange := { id := "e", name := "E" },
           exchangeAddress := "EX" },
         { fromAddr := "a", toAddr := "EX", amount := 15000, timestamp := 120,
           type := FlowType.deposit, exchange := { id := "e", name := "E" },
           exchangeAddress := "EX" }]
        []).details.suspiciousPatterns.countP
      (fun p => p.type == "coordinated_selling" && p.hour == (0 : ℤ))) = 1 ∧
    ((([{ fromAddr := "a", toAddr := "EX", amount := 15000, timestamp := 0,
          type := FlowType.deposit, exchange := { id := "e", name := "E" },
          exchangeAddress := "EX" },
        { fromAddr := "a", toAddr := "EX", amount := 15000, timestamp := 60,
          type := FlowType.deposit, exchange := { id := "e", name := "E" },
          exchangeAddress := "EX" },
        { fromAddr := "a", toAddr := "EX", amount := 15000, timestamp := 120,
          type := FlowType.deposit, exchange := { id := "e", name := "E" },
          exchangeAddress := "EX" }] : List Flow).filter
        (fun f => f.type == FlowType.deposit)).map Flow.fromAddr).toFinset.card
      = 1 := by
  constructor
  · rw [analyzeFlows_coordinated_countP Config.default 0 0 [] [] _ [] 0
      (by norm_num) (by norm_num)]
    have hc : largeDepositCount Config.default 0
        [{ fromAddr := "a", toAddr := "EX", amount := 15000, timestamp := 0,
           type := FlowType.deposit, exchange := { id := "e", name := "E" },
           exchangeAddress := "EX" },
         { fromAddr := "a", toAddr := "EX", amount := 15000, timestamp := 60,
           type := FlowType.deposit, exchange := { id := "e", name := "E" },
           exchangeAddress := "EX" },
         { fromAddr := "a", toAddr := "EX", amount := 15000, timestamp := 120,
           type := FlowType.deposit, exchange := { id := "e", name := "E" },
           exchangeAddress := "EX" }] 0 = 3 := by decide
    rw [hc]
    norm_num
  · decide

/-- Concrete instance of `coordinated_pattern_spec`: the spec's own scenario,
three distinct addresses each depositing 15,000 in hour bucket 0. -/
theorem coordinated_pattern_spec_witness :
    ((analyzeFlows Config.default 0 0 [] []
        [{ fromAddr := "a1", toAddr := "EX", amount := 15000, timestamp := 0,
           type := FlowType.deposit, exchange := { id := "e", name := "E" },
           exchangeAddress := "EX" },
         { fromAddr := "a2", toAddr := "EX", amount := 15000, timestamp := 60,
           type := FlowType.deposit, exchange := { id := "e", name := "E" },
           exchangeAddress := "EX" },
         { fromAddr := "a3", toAddr := "EX", amount := 15000, timestamp := 120,
           type := FlowType.deposit, exchange := { id := "e", name := "E" },
           exchangeAddress := "EX" }]
        []).details.suspiciousPatterns.countP
      (fun p => p.type == "coordinated_selling" && p.hour == (0 : ℤ))) =
      (if 3 ≤ largeDepositCount Config.default 0
        [{ fromAddr := "a1", toAddr := "EX", amount := 15000, timestamp := 0,
           type := FlowType.deposit, exchange := { id := "e", name := "E" },
           exchangeAddress := "EX" },
         { fromAddr := "a2", toAddr := "EX", amount := 15000, timestamp := 60,
           type := FlowType.deposit, exchange := { id := "e", name := "E" },
           exchangeAddress := "EX" },
         { fromAddr := "a3", toAddr := "EX", amount := 15000, timestamp := 120,
           type := FlowType.deposit, exchange := { id := "e", name := "E" },
           exchangeAddress := "EX" }] 0 then 1 else 0) :=
  (coordinated_pattern_spec Config.default 0 0 [] []
    [{ fromAddr := "a1", toAddr := "EX", amount := 15000, timestamp := 0,
       type := FlowType.deposit, exchange := { id := "e", name := "E" },
       exchangeAddress := "EX" },
     { fromAddr := "a2", toAddr := "EX", amount := 15000, timestamp := 60,
       type := FlowType.deposit, exchange := { id := "e", name := "E" },
       exchangeAddress := "EX" },
     { fromAddr := "a3", toAddr := "EX", amount := 15000, timestamp := 120,
       type := FlowType.deposit, exchange := { id := "e", name := "E" },
       exchangeAddress := "EX" }] [] 0 (by norm_num) (by norm_num)).1

/-! ## C1 — the clock reading affects only the timestamp and period fields -/

theorem analyzeRewardsStep_setTime (tz : ℤ) (a : Analysis) (r : Reward)
    (t ps pe : ℤ) :
    analyzeRewardsStep tz (setTime a t ps pe) r =
      setTime (analyzeRewardsStep tz a r) t ps pe := rfl

theorem analyzeRewards_setTime (tz : ℤ) :
    ∀ (rewards : List Reward) (a : Analysis) (t ps pe : ℤ),
    analyzeRewards tz rewards (setTime a t ps pe) =
      setTime (analyzeRewards tz rewards a) t ps pe := by
  intro rewards
  induction rewards with
  | nil => intro a t ps pe; rfl
  | cons r rs ih =>
      intro a t ps pe
      have h1 : analyzeRewards tz (r :: rs) (setTime a t ps pe) =
          analyzeRewards tz rs (analyzeRewardsStep tz (setTime a t ps pe) r) := rfl
      rw [h1, analyzeRewardsStep_setTime, ih]
      rfl

theorem analyzeTransfersStep_setTime (a : Analysis) (x : Transfer)
    (t ps pe : ℤ) :
    analyzeTransfersStep (setTime a t ps pe) x =
      setTime (analyzeTransfersStep a x) t ps pe := rfl

theorem analyzeTransfers_setTime :
    ∀ (ts : List Transfer) (a : Analysis) (t ps pe : ℤ),
    analyzeTransfers ts (setTime a t ps pe) =
      setTime (analyzeTransfers ts a) t ps pe := by
  intro ts
  induction ts with
  | nil => intro a t ps pe; rfl
  | cons x xs ih =>
      intro a t ps pe
      have h1 : analyzeTransfers (x :: xs) (setTime a t ps pe) =
          analyzeTransfers xs (analyzeTransfersStep (setTime a t ps pe) x) := rfl
      rw [h1, analyzeTransfersStep_setTime, ih]
      rfl

theorem aefStep_setTime (cfg : Config) (tz : ℤ) (a : Analysis) (l : List ℤ)
    (f : Flow) (t ps pe : ℤ) :
    analyzeExchangeFlowsStep cfg tz (setTime a t ps pe, l) f =
      (setTime (analyzeExchangeFlowsStep cfg tz (a, l) f).1 t ps pe,
       (analyzeExchangeFlowsStep cfg tz (a, l) f).2) := by
  by_cases hd : f.type = FlowType.deposit
  · cases htd : timeDiffOf a.details.rewardsByAddress f with
    | none => simp [analyzeExchangeFlowsStep, setTime, hd, htd]
    | some td =>
        by_cases hq : td < cfg.rapidSellThreshold <;>
          simp [analyzeExchangeFlowsStep, setTime, hd, htd, hq]
  · simp [analyzeExchangeFlowsStep, setTime, hd]

theorem aefFold_setTime (cfg : Config) (tz : ℤ) (t ps pe : ℤ) :
    ∀ (flows : List Flow) (a : Analysis) (l : List ℤ),
    flows.foldl (analyzeExchangeFlowsStep cfg tz) (setTime a t ps pe, l) =
      (setTime (flows.foldl (analyzeExchangeFlowsStep cfg tz) (a, l)).1 t ps pe,
       (flows.foldl (analyzeExchangeFlowsStep cfg tz) (a, l)).2) := by
  intro flows
  induction flows with
  | nil => intro a l; rfl
  | cons f fs ih =>
      intro a l
      rw [List.foldl_cons, List.foldl_cons, aefStep_setTime]
      rw [ih (analyzeExchangeFlowsStep cfg tz (a, l) f).1
        (analyzeExchangeFlowsStep cfg tz (a, l) f).2]

theorem analyzeExchangeFlows_setTime (cfg : Config) (tz : ℤ)
    (flows : List Flow) (a : Analysis) (t ps pe : ℤ) :
    analyzeExchangeFlows cfg tz flows (setTime a t ps pe) =
      setTime (analyzeExchangeFlows cfg tz flows a) t ps pe := by
  unfold analyzeExchangeFlows
  dsimp only
  rw [aefFold_setTime]
  split <;> rfl

theorem calculateSellPressure_setTime (a : Analysis) (t ps pe : ℤ) :
    calculateSellPressure (setTime a t ps pe) =
      setTime (calculateSellPressure a) t ps pe := by
  unfold calculateSellPressure setTime
  dsimp only

theorem identifyPatterns_setTime (cfg : Config) (tz : ℤ) (a : Analysis)
    (tr : List Addr) (t ps pe : ℤ) :
    identifyPatterns cfg tz (setTime a t ps pe) tr =
      setTime (identifyPatterns cfg tz a tr) t ps pe := rfl

theorem generateTrends_setTime (a : Analysis) (t ps pe : ℤ) :
    generateTrends (setTime a t ps pe) = setTime (generateTrends a) t ps pe := rfl

/-- The `Date.now()` reading threaded through `analyzeFlows` lands only in the
`timestamp` and `period` fields. -/
theorem analyzeFlows_setTime (cfg : Config) (tz now : ℤ)
    (rewards : List Reward) (transfers : List Transfer)
    (exchangeFlows : List Flow) (topReceivers : List Addr) :
    analyzeFlows cfg tz now rewards transfers exchangeFlows topReceivers =
      setTime (analyzeFlows cfg tz 0 rewards transfers exchangeFlows
        topReceivers) now (now - 86400) now := by
  have hinit : initialAnalysis now =
      setTime (initialAnalysis 0) now (now - 86400) now := rfl
  unfold analyzeFlows
  dsimp only
  rw [hinit, analyzeRewards_setTime, analyzeTransfers_setTime,
    analyzeExchangeFlows_setTime, calculateSellPressure_setTime,
    identifyPatterns_setTime, generateTrends_setTime]

/-- C1 (amended): `analyzeFlows` reads `Date.now()` at its top, so two
invocations on identical inputs agree on the whole `summary`, `details` and
`trends` — everything the aggregation pass computes — while the `timestamp`
and `period` fields carry the clock reading of each invocation; given equal
clock readings the result is bit-identical (the function is deterministic in
`now`, the host offset, the configuration and the inputs). -/
theorem analyzeFlows_pure (cfg : Config) (tz now₁ now₂ : ℤ)
    (rewards : List Reward) (transfers : List Transfer)
    (exchangeFlows : List Flow) (topReceivers : List Addr) :
    (analyzeFlows cfg tz now₁ rewards transfers exchangeFlows
        topReceivers).summary =
      (analyzeFlows cfg tz now₂ rewards transfers exchangeFlows
        topReceivers).summary ∧
    (analyzeFlows cfg tz now₁ rewards transfers exchangeFlows
        topReceivers).details =
      (analyzeFlows cfg tz now₂ rewards transfers exchangeFlows
        topReceivers).details ∧
    (analyzeFlows cfg tz now₁ rewards transfers exchangeFlows
        topReceivers).trends =
      (analyzeFlows cfg tz now₂ rewards transfers exchangeFlows
        topReceivers).trends := by
  rw [analyzeFlows_setTime cfg tz now₁ rewards transfers exchangeFlows
      topReceivers,
    analyzeFlows_setTime cfg tz now₂ rewards transfers exchangeFlows
      topReceivers]
  exact ⟨rfl, rfl, rfl⟩

/-- C1 (counterexample): two invocations of `analyzeFlows` on the identical
input quadruple but different clock readings produce different
`AnalysisResult` values — the `timestamp` (and period) fields come from
`Date.now()` read *inside* `analyzeFlows`, so the result is not a pure
function of the input quadruple alone. -/
theorem analyzeFlows_clock_counterexample :
    (analyzeFlows Config.default 0 0 [] [] [] []).timestamp = 0 ∧
    (analyzeFlows Config.default 0 1 [] [] [] []).timestamp = 1 ∧
    analyzeFlows Config.default 0 0 [] [] [] [] ≠
      analyzeFlows Config.default 0 1 [] [] [] [] := by
  have e0 : (analyzeFlows Config.default 0 0 [] [] [] []).timestamp = 0 := rfl
  have e1 : (analyzeFlows Config.default 0 1 [] [] [] []).timestamp = 1 := rfl
  refine ⟨e0, e1, fun h => ?_⟩
  have h2 := congrArg Analysis.timestamp h
  rw [e0, e1] at h2
  exact absurd h2 (by norm_num)

/-! ## C10 — a transfer between two exchange addresses yields two flows -/

/-- C10: for any transfer whose destination and source are both registered
exchange addresses, `detectExchangeTransfers` emits two flow records derived
from that single transfer — first a `deposit`, then a `withdrawal`, both with
the transfer's addresses, amount and timestamp — so the output list is longer
than the input list. -/
theorem detect_both_directions (exch : List (Addr × ExchangeInfo))
    (t : Transfer) (e₁ e₂ : ExchangeInfo)
    (h₁ : getExchangeInfo exch t.toAddr = some e₁)
    (h₂ : getExchangeInfo exch t.fromAddr = some e₂) :
    detectExchangeTransfers exch [t] =
      [{ fromAddr := t.fromAddr, toAddr := t.toAddr, amount := t.amount,
         timestamp := t.timestamp, type := FlowType.deposit, exchange := e₁,
         exchangeAddress := t.toAddr },
       { fromAddr := t.fromAddr, toAddr := t.toAddr, amount := t.amount,
         timestamp := t.timestamp, type := FlowType.withdrawal, exchange := e₂,
         exchangeAddress := t.fromAddr }] ∧
    ([t] : List Transfer).length < (detectExchangeTransfers exch [t]).length := by
  have hd : detectExchangeTransfers exch [t] =
      [{ fromAddr := t.fromAddr, toAddr := t.toAddr, amount := t.amount,
         timestamp := t.timestamp, type := FlowType.deposit, exchange := e₁,
         exchangeAddress := t.toAddr },
       { fromAddr := t.fromAddr, toAddr := t.toAddr, amount := t.amount,
         timestamp := t.timestamp, type := FlowType.withdrawal, exchange := e₂,
         exchangeAddress := t.fromAddr }] := by
    simp [detectExchangeTransfers, detectStep, h₁, h₂]
  refine ⟨hd, ?_⟩
  rw [hd]
  simp

/-- Concrete instance of `detect_both_directions`: a transfer from one
registered exchange address to another. -/
theorem detect_both_directions_witness :
    detectExchangeTransfers
        [("exA", { id := "binance", name := "Binance" }),
         ("exB", { id := "kraken", name := "Kraken" })]
        [{ fromAddr := "exB", toAddr := "exA", amount := 5, timestamp := 100 }] =
      [{ fromAddr := "exB", toAddr := "exA", amount := 5, timestamp := 100,
         type := FlowType.deposit, exchange := { id := "binance", name := "Binance" },
         exchangeAddress := "exA" },
       { fromAddr := "exB", toAddr := "exA", amount := 5, timestamp := 100,
         type := FlowType.withdrawal, exchange := { id := "kraken", name := "Kraken" },
         exchangeAddress := "exB" }] :=
  (detect_both_directions
      [("exA", { id := "binance", name := "Binance" }),
       ("exB", { id := "kraken", name := "Kraken" })]
      { fromAddr := "exB", toAddr := "exA", amount := 5, timestamp := 100 }
      { id := "binance", name := "Binance" } { id := "kraken", name := "Kraken" }
      (by decide) (by decide)).1

/-! ## C8 — pagination policy of the collection layer -/

/-- The issued page indices of `fetchTransfersLoop` are consecutive, starting
at the initial page. -/
theorem fetchTransfersLoop_requests {α : Type} (server : ℕ → List α) :
    ∀ fuel page, ∃ n, (fetchTransfersLoop server fuel page).2 =
      List.range' page n := by
  intro fuel
  induction fuel with
  | zero => intro page; exact ⟨0, rfl⟩
  | succ n ih =>
      intro page
      simp only [fetchTransfersLoop]
      by_cases h0 : (server page).length = 0
      · exact ⟨1, by simp [h0]⟩
      · by_cases hs : (server page).length < rowsPerPage
        · exact ⟨1, by simp [h0, hs]⟩
        · obtain ⟨m, hm⟩ := ih (page + 1)
          exact ⟨m + 1, by simp [h0, hs, List.range'_succ, hm]⟩

/-- A loop with at least one iteration of budget always requests its starting
page. -/
theorem fetchTransfersLoop_mem_start {α : Type} (server : ℕ → List α)
    (fuel page : ℕ) (h : 1 ≤ fuel) :
    page ∈ (fetchTransfersLoop server fuel page).2 := by
  obtain ⟨n, rfl⟩ : ∃ n, fuel = n + 1 := ⟨fuel - 1, by omega⟩
  simp only [fetchTransfersLoop]
  by_cases h0 : (server page).length = 0
  · simp [h0]
  · by_cases hs : (server page).length < rowsPerPage
    · simp [h0, hs]
    · simp [h0, hs]

/-- Every request of a loop started at `page` is at least `page`. -/
theorem fetchTransfersLoop_mem_ge {α : Type} (server : ℕ → List α) :
    ∀ (fuel page q : ℕ), q ∈ (fetchTransfersLoop server fuel page).2 →
      page ≤ q := by
  intro fuel
  induction fuel with
  | zero => intro page q hq; simp [fetchTransfersLoop] at hq
  | succ n ih =>
      intro page q hq
      simp only [fetchTransfersLoop] at hq
      by_cases h0 : (server page).length = 0
      · simp [h0] at hq; omega
      · by_cases hs : (server page).length < rowsPerPage
        · simp [h0, hs] at hq; omega
        · simp only [h0, hs, if_false, List.mem_cons] at hq
          rcases hq with rfl | hq
          · omega
          · have := ih (page + 1) q hq
            omega

/-- Universal continuation: any requested page that comes back full triggers
the request for the next page, as long as the iteration budget allows that
further iteration (the JS loop is unbounded, so the budget side condition is
vacuous for the real loop). -/
theorem fetchTransfersLoop_continue {α : Type} (server : ℕ → List α) :
    ∀ (fuel page p : ℕ), p ∈ (fetchTransfersLoop server fuel page).2 →
      (server p).length = rowsPerPage → p + 1 < page + fuel →
      p + 1 ∈ (fetchTransfersLoop server fuel page).2 := by
  intro fuel
  induction fuel with
  | zero => intro page p hp _ _; simp [fetchTransfersLoop] at hp
  | succ n ih =>
      intro page p hp hfull hlt
      simp only [fetchTransfersLoop] at hp ⊢
      by_cases h0 : (server page).length = 0
      · simp [h0] at hp
        subst hp
        rw [hfull] at h0
        simp [rowsPerPage] at h0
      · by_cases hs : (server page).length < rowsPerPage
        · simp [h0, hs] at hp
          subst hp
          rw [hfull] at hs
          simp at hs
        · simp only [h0, hs, if_false, List.mem_cons] at hp ⊢
          rcases hp with rfl | hp
          · right
            exact fetchTransfersLoop_mem_start server n (p + 1) (by omega)
          · right
            exact ih (page + 1) p hp hfull (by omega)

/-- Universal termination: a requested page that comes back short ends the
pagination — no later page is ever requested in the same query. -/
theorem fetchTransfersLoop_stop {α : Type} (server : ℕ → List α) :
    ∀ (fuel page p : ℕ), p ∈ (fetchTransfersLoop server fuel page).2 →
      (server p).length < rowsPerPage →
      ∀ q ∈ (fetchTransfersLoop server fuel page).2, q ≤ p := by
  intro fuel
  induction fuel with
  | zero => intro page p hp _; simp [fetchTransfersLoop] at hp
  | succ n ih =>
      intro page p hp hshort q hq
      simp only [fetchTransfersLoop] at hp hq
      by_cases h0 : (server page).length = 0
      · simp [h0] at hp hq; omega
      · by_cases hs : (server page).length < rowsPerPage
        · simp [h0, hs] at hp hq; omega
        · simp only [h0, hs, if_false, List.mem_cons] at hp hq
          rcases hp with rfl | hp
          · exact absurd hshort hs
          · rcases hq with rfl | hq
            · have := fetchTransfersLoop_mem_ge server n (q + 1) p hp
              omega
            · exact ih (page + 1) p hp hshort q hq

/-- C8 (amended): the per-address *transfer* lookup paginates — a full first
page (length exactly `rowsPerPage`) always triggers a request for page 1, a
first page shorter than `rowsPerPage` ends pagination with page 0 the only
request, and the issued requests are always the consecutive pages `0,1,2,…`;
moreover, page by page, *any* requested page that comes back full triggers at
least the next page request (whenever the modelled iteration budget allows
another iteration — the JS loop is unbounded) and *any* requested page that
comes back short ends pagination with no later request.  The per-address
*reward* lookup, by contrast, issues exactly the single request for page 0
whatever the server returns. -/
theorem pagination_policy {α : Type} (server : ℕ → List α) (fuel : ℕ) :
    ((server 0).length = rowsPerPage → 2 ≤ fuel →
      1 ∈ (fetchTransfersForAddress server fuel).2) ∧
    ((server 0).length < rowsPerPage →
      1 ≤ fuel → (fetchTransfersForAddress server fuel).2 = [0]) ∧
    (∀ p : ℕ, p ∈ (fetchTransfersForAddress server fuel).2 →
      (server p).length = rowsPerPage → p + 1 < fuel →
      p + 1 ∈ (fetchTransfersForAddress server fuel).2) ∧
    (∀ p : ℕ, p ∈ (fetchTransfersForAddress server fuel).2 →
      (server p).length < rowsPerPage →
      ∀ q ∈ (fetchTransfersForAddress server fuel).2, q ≤ p) ∧
    ((fetchTransfersForAddress server fuel).2 =
      List.range (fetchTransfersForAddress server fuel).2.length) ∧
    (∀ srv : ℕ → List RewardRecord, ∀ s e : ℤ,
      (fetchRewardsForAddress srv s e).2 = [0]) := by
  refine ⟨?_, ?_, ?_, ?_, ?_, ?_⟩
  · intro hfull hfuel
    obtain ⟨n, rfl⟩ : ∃ n, fuel = n + 2 :=
      ⟨fuel - 2, by omega⟩
    have h0 : ¬ (server 0).length = 0 := by
      rw [hfull]; simp [rowsPerPage]
    have hs : ¬ (server 0).length < rowsPerPage := by rw [hfull]; simp
    simp only [fetchTransfersForAddress, fetchTransfersLoop, h0, hs, if_false]
    by_cases h1 : (server 1).length = 0
    · simp [h1]
    · by_cases h1s : (server 1).length < rowsPerPage <;> simp [h1, h1s]
  · intro hshort hfuel
    obtain ⟨n, rfl⟩ : ∃ n, fuel = n + 1 := ⟨fuel - 1, by omega⟩
    simp only [fetchTransfersForAddress, fetchTransfersLoop]
    by_cases h0 : (server 0).length = 0
    · simp [h0]
    · simp [h0, hshort]
  · intro p hp hfull hlt
    exact fetchTransfersLoop_continue server fuel 0 p hp hfull (by omega)
  · intro p hp hshort
    exact fetchTransfersLoop_stop server fuel 0 p hp hshort
  · obtain ⟨n, hn⟩ := fetchTransfersLoop_requests server fuel 0
    rw [fetchTransfersForAddress, hn]
    simp [List.range_eq_range']
  · intro srv s e
    rfl

/-- Concrete instance of `pagination_policy`: a server whose page 0 has exactly
100 records forces a second transfer-page request; a server whose page 0 has
30 records gets exactly one request; and against a server with full pages 0
and 1 followed by a short page 2, the full page 1 forces the request for page
2 while the short page 2 rules out any request for page 3. -/
theorem pagination_policy_witness :
    1 ∈ (fetchTransfersForAddress (fun _ => List.replicate 100 ()) 5).2 ∧
    (fetchTransfersForAddress (fun _ => List.replicate 30 ()) 5).2 = [0] ∧
    2 ∈ (fetchTransfersForAddress
      (fun p => if p < 2 then List.replicate 100 () else List.replicate 30 ())
      5).2 ∧
    3 ∉ (fetchTransfersForAddress
      (fun p => if p < 2 then List.replicate 100 () else List.replicate 30 ())
      5).2 :=
  ⟨(pagination_policy (fun _ => List.replicate 100 ()) 5).1 (by decide) (by decide),
   (pagination_policy (fun _ => List.replicate 30 ()) 5).2.1 (by decide) (by decide),
   (pagination_policy
      (fun p => if p < 2 then List.replicate 100 () else List.replicate 30 ())
      5).2.2.1 1 (by decide) (by decide) (by decide),
   fun h3 => absurd
    ((pagination_policy
        (fun p => if p < 2 then List.replicate 100 () else List.replicate 30 ())
        5).2.2.2.1 2 (by decide) (by decide) 3 h3)
    (by decide)⟩

/-- C8 (counterexample): the per-address reward lookup of `fetchRecentRewards`
receives a page whose length equals its page size (`row: 20`) and still issues
no further page request — its request list stays `[0]` — refuting the claim
that every paginated fetch in the collection layer requests another page after
a full page. -/
theorem reward_lookup_no_second_page :
    ((fun _ => List.replicate 20 { amount := 1, blockTimestamp := 0 }
        : ℕ → List RewardRecord) 0).length = rewardRowsPerPage ∧
    (fetchRewardsForAddress
        (fun _ => List.replicate 20 { amount := 1, blockTimestamp := 0 })
        0 100).2 = [0] := by
  constructor
  · decide
  · rfl

end InflationTracker
